import Mathlib

/-!
# vcpkg: the build command `build_package` and the container helpers of `Util`

A shallow embedding of `vcpkg::Commands::Build::build_package`
(`toolsrc/src/commands_build.cpp`) together with the collaborators it calls,
and of `Util::erase_remove_if`, `Util::unstable_keep_if` and `Util::group_by`
(`toolsrc/include/vcpkg_Util.h`).

* Functions whose bodies are in the sources are translated statement by
  statement (`create_binary_control_file`, `make_build_env_cmd`,
  `build_package`).
* Functions that are only declared or called there (`filter_dependencies`,
  `StatusParagraphs::find_installed`, `PackageSpec::from_name_and_triplet`,
  the `BinaryParagraph(SourceParagraph, Triplet)` constructor, ...) are
  modelled from the specification and marked as such.
* Everything that talks to the operating system (spawning the build, the lint
  pass, the clock, ...) is an oracle held in `Env`.
* Side effects are recorded as a trace of `Event`s in the `World`; a call that
  ends in `Checks::check_exit` / `value_or_exit` yields `Outcome.exited`.
-/

namespace vcpkg

/-! ## Data model -/

/-- Triplet: a platform identifier; identity is the canonical name. -/
structure Triplet where
  canonical_name : String
deriving DecidableEq, Repr

/-- PackageSpec (`PackageSpec.h`): the private members `m_name`, `m_triplet`,
read through `name()` and `triplet()`. -/
structure PackageSpec where
  name : String
  triplet : Triplet
deriving DecidableEq, Repr

/-- Error carried by an `Expected<PackageSpec>` that holds no value. -/
inductive ParseError where
  | Malformed
deriving DecidableEq, Repr

/-- Modelled from the spec: `PackageSpec::from_name_and_triplet` is declared in
`PackageSpec.h` but its body is not part of the sources. Spec 4.1: "fails only
if `name` is empty"; on success the result pairs the name with the triplet. -/
def PackageSpec.from_name_and_triplet (name : String) (triplet : Triplet) :
    Except ParseError PackageSpec :=
  if name = "" then Except.error ParseError.Malformed
  else Except.ok { name := name, triplet := triplet }

/-- Modelled from the spec: `PackageSpec::to_string` (declared only); spec 4.1
renders a spec as "name:triplet". -/
def PackageSpec.to_string (p : PackageSpec) : String :=
  p.name ++ ":" ++ p.triplet.canonical_name

/-- Modelled from the spec: `Dependency` (header not in the sources). A
dependency expression is a package name plus an optional platform qualifier. -/
structure Dependency where
  name : String
  qualifier : Option String
deriving DecidableEq, Repr

/-- Modelled from the spec: `SourceParagraph` (header not in the sources); the
fields are those of spec section 3, `build_package` reads `name` and
`depends`. -/
structure SourceParagraph where
  name : String
  version : String
  description : String
  maintainer : String
  depends : List Dependency
deriving DecidableEq, Repr

/-- BinaryParagraph (`BinaryParagraph.h`): the five data members. -/
structure BinaryParagraph where
  spec : PackageSpec
  version : String
  description : String
  maintainer : String
  depends : List String
deriving DecidableEq, Repr

/-- Modelled from the spec: installation state of a status entry (section 3). -/
inductive InstallState where
  | not_installed
  | half_installed
  | installed
deriving DecidableEq, Repr

/-- Modelled from the spec: `StatusEntry` associates one `PackageSpec` with an
installation state and, when installed, the `BinaryParagraph` installed. -/
structure StatusEntry where
  spec : PackageSpec
  state : InstallState
  package : Option BinaryParagraph
deriving DecidableEq, Repr

/-- Modelled from the spec: `StatusParagraphs` (header not in the sources), the
in-memory status database, held as the sequence of its entries. -/
abbrev StatusParagraphs := List StatusEntry

/-- Modelled from the spec: `StatusParagraphs::find_installed(name, triplet)`
"returns a populated entry only when state is `installed`". `none` plays the
part of `status_db.end()`. -/
def StatusParagraphs.find_installed (status_db : StatusParagraphs) (name : String)
    (triplet : Triplet) : Option StatusEntry :=
  status_db.find? (fun e =>
    decide (e.spec = { name := name, triplet := triplet }) &&
      decide (e.state = InstallState.installed))

/-- A `fs::path`, held as its sequence of components. -/
abbrev Path := List String

/-- The `operator/` of `fs::path`: append one component. Separators are written
when the path is rendered, see `Path.native`. -/
def Path.append (p : Path) (component : String) : Path :=
  p ++ [component]

/-- Does a component start with a directory separator (`/` or `\`)? -/
def starts_with_separator (component : String) : Bool :=
  match component.data with
  | [] => false
  | c :: _ => c == '/' || c == '\\'

/-- The `native()` rendering of a path: its components in order, with a separator
written between two of them unless the right one starts with one itself, as in
`port_dir / "/."`, where `operator/` adds none. -/
def Path.native : Path → String
  | [] => ""
  | front :: rest =>
    rest.foldl
      (fun rendered component =>
        if starts_with_separator component then rendered ++ component
        else rendered ++ "\\" ++ component)
      front

/-- Toolset: the two members `build_package` reads. -/
structure Toolset where
  vcvarsall : Path
  version : String
deriving DecidableEq, Repr

/-- VcpkgPaths: the members and getters `build_package` and
`create_binary_control_file` read; the getters (`get_cmake_exe()`,
`get_git_exe()`, `get_toolset()`) are reads of values resolved beforehand. -/
structure VcpkgPaths where
  packages : Path
  ports_cmake : Path
  get_cmake_exe : Path
  get_git_exe : Path
  get_toolset : Toolset
deriving DecidableEq, Repr

/-- BuildResult, with the enumerators handled by `Build::to_string`. -/
inductive BuildResult where
  | NULLVALUE
  | SUCCEEDED
  | BUILD_FAILED
  | POST_BUILD_CHECKS_FAILED
  | CASCADED_DUE_TO_MISSING_DEPENDENCIES
deriving DecidableEq, Repr

/-- ExtendedBuildResult: what `build_package` returns. -/
structure ExtendedBuildResult where
  code : BuildResult
  unmet_dependencies : List PackageSpec
deriving DecidableEq, Repr

/-! ## Effects -/

/-- How a call ends: it hands a value back to its caller, or the process is
terminated (`Checks::check_exit` with a false condition, `value_or_exit` on an
`Expected` without a value). -/
inductive Outcome (α : Type) where
  | returned (value : α)
  | exited
deriving DecidableEq, Repr

/-- The observable actions of `build_package`, in the order they happen. -/
inductive Event where
  | cmd_execute_clean (command : String)
  | track_metric (name : String) (value : Nat)
  | track_property (name : String) (value : String)
  | perform_all_checks (spec : PackageSpec)
  | write_contents (path : Path) (contents : String)
deriving DecidableEq, Repr

/-- Is the event an invocation of `System::cmd_execute_clean`? -/
def Event.is_cmd_execute_clean : Event → Bool
  | Event.cmd_execute_clean _ => true
  | _ => false

/-- Is the event an invocation of `PostBuildLint::perform_all_checks`? -/
def Event.is_perform_all_checks : Event → Bool
  | Event.perform_all_checks _ => true
  | _ => false

/-- Is the event a file write (`write_contents`)? -/
def Event.is_write_contents : Event → Bool
  | Event.write_contents _ _ => true
  | _ => false

/-- The state around a call: the status database (handed to `build_package` by
const reference) and the trace of actions performed so far. -/
structure World where
  status_db : StatusParagraphs
  trace : List Event
deriving DecidableEq, Repr

/-- Append one action to the trace. -/
def World.emit (w : World) (e : Event) : World :=
  { w with trace := w.trace ++ [e] }

/-- The collaborators whose code is outside the sources, and the oracles for
what the operating system answers. -/
structure Env where
  /-- evaluation of a dependency qualifier against a triplet -/
  qualifier_satisfied : String → Triplet → Bool
  /-- the value of `triplet.architecture()` -/
  architecture : Triplet → String
  /-- the global debug flag -/
  g_debugging : Bool
  /-- the function `make_cmake_cmd` (declared elsewhere) -/
  make_cmake_cmd : Path → Path → List (String × String) → String
  /-- what `System::cmd_execute_clean` answers for a command line: the exit code
  of the spawned process, or termination when its `SystemRoot` lookup fails -/
  cmd_execute_clean : String → Outcome Int
  /-- the reading of the build timer -/
  buildtimeus : Nat
  /-- the error count reported by `PostBuildLint::perform_all_checks` -/
  perform_all_checks : PackageSpec → VcpkgPaths → Nat
  /-- the text produced by `Strings::serialize` for a binary paragraph -/
  serialize : BinaryParagraph → String
  /-- the directory name given by `BinaryParagraph::dir` -/
  dir : BinaryParagraph → String

/-! ## Operations -/

/-- Keep the first occurrence of every name, given the names already seen. -/
def collapse_duplicates (seen : List String) : List String → List String
  | [] => []
  | x :: xs =>
    if x ∈ seen then collapse_duplicates seen xs
    else x :: collapse_duplicates (x :: seen) xs

/-- Modelled from the spec: `filter_dependencies` is called by `build_package`
but defined outside the sources. Spec 4.4: "evaluates each expression's
qualifier against `triplet`; order-preserving; duplicate names collapse to one
(first occurrence wins)". A dependency without qualifier is always kept. -/
def filter_dependencies (env : Env) (depends : List Dependency) (triplet : Triplet) :
    List String :=
  collapse_duplicates []
    ((depends.filter (fun d =>
        match d.qualifier with
        | none => true
        | some q => env.qualifier_satisfied q triplet)).map (fun d => d.name))

/-- Modelled from the spec: the constructor `BinaryParagraph(spgh, triplet)`
(declared in `BinaryParagraph.h`, body outside the sources). Spec 3 and 4.2:
the result's spec is `(source.name, triplet)`, version, description and
maintainer are the source's, and `depends` is the triplet-filtered list. -/
def BinaryParagraph.from_source (env : Env) (spgh : SourceParagraph) (triplet : Triplet) :
    BinaryParagraph :=
  { spec := { name := spgh.name, triplet := triplet }
    version := spgh.version
    description := spgh.description
    maintainer := spgh.maintainer
    depends := filter_dependencies env spgh.depends triplet }

/-- The function `create_binary_control_file` (commands_build.cpp, 22-27). -/
def create_binary_control_file (env : Env) (paths : VcpkgPaths)
    (source_paragraph : SourceParagraph) (triplet : Triplet) (w : World) : World :=
  let bpgh := BinaryParagraph.from_source env source_paragraph triplet
  let binary_control_file := (paths.packages.append (env.dir bpgh)).append "CONTROL"
  w.emit (Event.write_contents binary_control_file (env.serialize bpgh))

/-- The function `make_build_env_cmd` (commands_build.cpp, 29-38). -/
def make_build_env_cmd (env : Env) (triplet : Triplet) (toolset : Toolset) : String :=
  let tonull := if env.g_debugging then "" else " >nul"
  "\"" ++ toolset.vcvarsall.native ++ "\" " ++ env.architecture triplet ++ " " ++ tonull
    ++ " 2>&1"

/-- The loop of `build_package` (commands_build.cpp, 51-58): walk the filtered
dependencies, pushing a `PackageSpec` for each one the status database does not
show installed. `none`: `value_or_exit` terminated the process. -/
def collect_missing_specs (status_db : StatusParagraphs) (triplet : Triplet) :
    List String → List PackageSpec → Option (List PackageSpec)
  | [], missing_specs => some missing_specs
  | dep :: rest, missing_specs =>
    if (status_db.find_installed dep triplet).isNone then
      match PackageSpec.from_name_and_triplet dep triplet with
      | Except.error _ => none
      | Except.ok p => collect_missing_specs status_db triplet rest (missing_specs ++ [p])
    else collect_missing_specs status_db triplet rest missing_specs

/-- The command line `build_package` hands to `System::cmd_execute_clean`
(commands_build.cpp, 66-83). -/
def build_command (env : Env) (source_paragraph : SourceParagraph) (spec : PackageSpec)
    (paths : VcpkgPaths) (port_dir : Path) : String :=
  let triplet := spec.triplet
  let cmake_exe_path := paths.get_cmake_exe
  let git_exe_path := paths.get_git_exe
  let ports_cmake_script_path := paths.ports_cmake
  let toolset := paths.get_toolset
  let cmd_set_environment := make_build_env_cmd env triplet toolset
  let cmd_launch_cmake := env.make_cmake_cmd cmake_exe_path ports_cmake_script_path
    [ ("CMD", "BUILD"),
      ("PORT", source_paragraph.name),
      ("CURRENT_PORT_DIR", (port_dir.append "/.").native),
      ("TARGET_TRIPLET", triplet.canonical_name),
      ("VCPKG_PLATFORM_TOOLSET", toolset.version),
      ("GIT", git_exe_path.native) ]
  cmd_set_environment ++ " && " ++ cmd_launch_cmake

/-- The function `build_package` (commands_build.cpp, 40-111). -/
def build_package (env : Env) (source_paragraph : SourceParagraph) (spec : PackageSpec)
    (paths : VcpkgPaths) (port_dir : Path) (w : World) :
    Outcome ExtendedBuildResult × World :=
  -- Checks::check_exit(spec.name() == source_paragraph.name, ...)
  if spec.name ≠ source_paragraph.name then (Outcome.exited, w)
  else
    let triplet := spec.triplet
    match collect_missing_specs w.status_db triplet
        (filter_dependencies env source_paragraph.depends triplet) [] with
    | none => (Outcome.exited, w)
    | some missing_specs =>
      -- Fail the build if any dependencies were missing
      if !missing_specs.isEmpty then
        (Outcome.returned
          { code := BuildResult.CASCADED_DUE_TO_MISSING_DEPENDENCIES
            unmet_dependencies := missing_specs }, w)
      else
        let command := build_command env source_paragraph spec paths port_dir
        let w1 := w.emit (Event.cmd_execute_clean command)
        match env.cmd_execute_clean command with
        | Outcome.exited => (Outcome.exited, w1)
        | Outcome.returned return_code =>
          let w2 := w1.emit
            (Event.track_metric ("buildtimeus-" ++ spec.to_string) env.buildtimeus)
          if return_code ≠ 0 then
            let w3 := w2.emit (Event.track_property "error" "build failed")
            let w4 := w3.emit (Event.track_property "build_error" spec.to_string)
            (Outcome.returned
              { code := BuildResult.BUILD_FAILED, unmet_dependencies := [] }, w4)
          else
            let error_count := env.perform_all_checks spec paths
            let w5 := w2.emit (Event.perform_all_checks spec)
            if error_count ≠ 0 then
              (Outcome.returned
                { code := BuildResult.POST_BUILD_CHECKS_FAILED
                  unmet_dependencies := [] }, w5)
            else
              let w6 := create_binary_control_file env paths source_paragraph triplet w5
              (Outcome.returned
                { code := BuildResult.SUCCEEDED, unmet_dependencies := [] }, w6)

/-! ## Concrete scenario (spec section 8) -/

/-- The triplet `x64-windows`. -/
def x64_windows : Triplet := { canonical_name := "x64-windows" }

/-- The spec `zlib:x64-windows`. -/
def zlib_spec : PackageSpec := { name := "zlib", triplet := x64_windows }

/-- A source paragraph for `zlib` depending on `libpng (x64-windows)` and `bzip2`. -/
def zlib_source : SourceParagraph :=
  { name := "zlib", version := "1.2.11", description := "compression library"
    maintainer := "", depends :=
      [ { name := "libpng", qualifier := some "x64-windows" },
        { name := "bzip2", qualifier := none } ] }

/-- A status entry marking `name:x64-windows` as installed. -/
def installed_entry (name : String) : StatusEntry :=
  { spec := { name := name, triplet := x64_windows }
    state := InstallState.installed
    package := some
      { spec := { name := name, triplet := x64_windows }, version := "1"
        description := "", maintainer := "", depends := [] } }

/-- Sample paths. -/
def sample_paths : VcpkgPaths :=
  { packages := ["vcpkg", "packages"]
    ports_cmake := ["vcpkg", "scripts", "ports.cmake"]
    get_cmake_exe := ["cmake.exe"]
    get_git_exe := ["git.exe"]
    get_toolset := { vcvarsall := ["vcvarsall.bat"], version := "v141" } }

/-- A sample environment: a qualifier holds when it is the triplet's canonical
name; the build exits with `return_code`, lint reports `error_count` errors. -/
def sample_env (return_code : Int) (error_count : Nat) : Env :=
  { qualifier_satisfied := fun q t => decide (q = t.canonical_name)
    architecture := fun _ => "x64"
    g_debugging := false
    make_cmake_cmd := fun _ _ _ => "cmake"
    cmd_execute_clean := fun _ => Outcome.returned return_code
    buildtimeus := 1000
    perform_all_checks := fun _ _ => error_count
    serialize := fun b => "Package: " ++ b.spec.name
    dir := fun b => b.spec.name ++ "_" ++ b.spec.triplet.canonical_name }

/-- A world whose status database has only `bzip2:x64-windows` installed. -/
def world_bzip2 : World :=
  { status_db := [installed_entry "bzip2"], trace := [] }

/-- A world whose status database has `libpng` and `bzip2` installed. -/
def world_both : World :=
  { status_db := [installed_entry "libpng", installed_entry "bzip2"], trace := [] }

/-- A source paragraph for `zlib` that names `libpng` twice. -/
def zlib_source_repeated : SourceParagraph :=
  { zlib_source with depends :=
      [ { name := "libpng", qualifier := none },
        { name := "bzip2", qualifier := none },
        { name := "libpng", qualifier := some "x64-windows" } ] }

/-- A source paragraph for `zlib` with a dependency whose name is empty. -/
def zlib_source_unnamed : SourceParagraph :=
  { zlib_source with depends := [ { name := "", qualifier := none } ] }

/-- A source paragraph named `zlib2` (not the name of `zlib_spec`), no dependencies. -/
def zlib2_source : SourceParagraph :=
  { zlib_source with name := "zlib2", depends := [] }

/-- A source paragraph named `zlib2` depending on `libpng`. -/
def zlib2_source_libpng : SourceParagraph :=
  { zlib_source with name := "zlib2", depends := [ { name := "libpng", qualifier := none } ] }

/-- The port directory used in the examples. -/
def zlib_port_dir : Path := ["vcpkg", "ports", "zlib"]

/-! ## Containers (`vcpkg_Util.h`)

`Util::erase_remove_if` and `Util::unstable_keep_if` are one-liners over the
standard algorithms `std::remove_if` and `std::partition`. A container is held
as the sequence of its elements and an iterator as a position in it; the two
algorithms are written out as the loops the standard library runs (for
`std::partition` the loop for bidirectional iterators, the one a `std::vector`
gets), each loop bounded by a step count that the length of the container
covers. -/

namespace Util

/-- The algorithm `std::find_if(begin, end, pred)`: the position of the first
element satisfying `pred`, the length when there is none. -/
def std_find_if {α : Type} (pred : α → Bool) : List α → Nat
  | [] => 0
  | x :: xs => if pred x then 0 else std_find_if pred xs + 1

/-- The shifting loop of `std::remove_if`:
`for (i = first; ++i != last;) if (!pred(*i)) *first++ = std::move(*i);`
started with `i` at position `i`; the result is the container and `first`. -/
def std_remove_if_loop {α : Type} (pred : α → Bool) :
    Nat → List α → Nat → Nat → List α × Nat
  | 0, cont, first, _ => (cont, first)
  | steps + 1, cont, first, i =>
    match cont[i + 1]? with
    | none => (cont, first)
    | some x =>
      if !pred x then std_remove_if_loop pred steps (cont.set first x) (first + 1) (i + 1)
      else std_remove_if_loop pred steps cont first (i + 1)

/-- The algorithm `std::remove_if(begin, end, pred)`: `first = find_if(...)`, then,
if `first != last`, the shifting loop. Returns the container as the algorithm
leaves it together with the returned iterator. -/
def std_remove_if {α : Type} (pred : α → Bool) (cont : List α) : List α × Nat :=
  let first := std_find_if pred cont
  if first ≠ cont.length then std_remove_if_loop pred cont.length cont first first
  else (cont, first)

/-- The call `cont.erase(it, cont.end())`: drop everything from position `it` on. -/
def erase_to_end {α : Type} (cont : List α) (it : Nat) : List α :=
  cont.take it

/-- The call `std::iter_swap(first, last)`: exchange the elements at two positions. -/
def iter_swap {α : Type} (cont : List α) (first last : Nat) : List α :=
  match cont[first]?, cont[last]? with
  | some a, some b => (cont.set first b).set last a
  | _, _ => cont

/-- First inner loop of `std::partition`:
`for (;;) { if (first == last) return; if (!pred(*first)) break; ++first; }`;
the result is the new `first`. -/
def std_partition_skip_front {α : Type} (pred : α → Bool) (cont : List α) :
    Nat → Nat → Nat → Nat
  | 0, first, _ => first
  | steps + 1, first, last =>
    if first = last then first
    else
      match cont[first]? with
      | none => first
      | some x =>
        if !pred x then first
        else std_partition_skip_front pred cont steps (first + 1) last

/-- Second inner loop of `std::partition`:
`do { --last; if (first == last) return; } while (!pred(*last));`
the result is the new `last` (equal to `first` when the algorithm returns). -/
def std_partition_skip_back {α : Type} (pred : α → Bool) (cont : List α) :
    Nat → Nat → Nat → Nat
  | 0, _, last => last
  | steps + 1, first, last =>
    if first = last - 1 then last - 1
    else
      match cont[last - 1]? with
      | none => last - 1
      | some x =>
        if !pred x then std_partition_skip_back pred cont steps first (last - 1)
        else last - 1

/-- Outer loop of `std::partition` for bidirectional iterators: skip the elements
in place at the front, skip those in place at the back, swap the out-of-place
pair, advance `first`, repeat. -/
def std_partition_loop {α : Type} (pred : α → Bool) :
    Nat → List α → Nat → Nat → List α × Nat
  | 0, cont, first, _ => (cont, first)
  | steps + 1, cont, first, last =>
    let first1 := std_partition_skip_front pred cont cont.length first last
    if first1 = last then (cont, first1)
    else
      let last1 := std_partition_skip_back pred cont cont.length first1 last
      if first1 = last1 then (cont, first1)
      else std_partition_loop pred steps (iter_swap cont first1 last1) (first1 + 1) last1

/-- The algorithm `std::partition(begin, end, pred)`: the container as the
algorithm leaves it together with the returned iterator. -/
def std_partition {α : Type} (pred : α → Bool) (cont : List α) : List α × Nat :=
  std_partition_loop pred cont.length cont 0 cont.length

/-- The function `Util::unstable_keep_if` (vcpkg_Util.h, 25-29):
`cont.erase(std::partition(cont.begin(), cont.end(), pred), cont.end())`. -/
def unstable_keep_if {α : Type} (cont : List α) (pred : α → Bool) : List α :=
  erase_to_end (std_partition pred cont).1 (std_partition pred cont).2

/-- The function `Util::erase_remove_if` (vcpkg_Util.h, 31-35):
`cont.erase(std::remove_if(cont.begin(), cont.end(), pred), cont.end())`. -/
def erase_remove_if {α : Type} (cont : List α) (pred : α → Bool) : List α :=
  erase_to_end (std_remove_if pred cont).1 (std_remove_if pred cont).2

/-- A `std::map<K, std::vector<const V*>>`, held as its entries (key, sequence);
a pointer to an element is represented by the element. The order of the entries
plays no part in `group_by`. -/
abbrev Map (K V : Type) := List (K × List V)

/-- The sequence a map holds under a key, `none` when the key has no entry. -/
def Map.find {K V : Type} [DecidableEq K] (m : Map K V) (key : K) : Option (List V) :=
  match m with
  | [] => none
  | (k, vs) :: rest => if k = key then some vs else Map.find rest key

/-- The statement `(*output)[key].push_back(&element)`: `operator[]` finds the
entry of `key`, creating one with an empty sequence when there is none, and the
element is appended to its sequence. -/
def Map.subscript_push_back {K V : Type} [DecidableEq K] (m : Map K V) (key : K)
    (element : V) : Map K V :=
  match m with
  | [] => [(key, [element])]
  | (k, vs) :: rest =>
    if k = key then (k, vs ++ [element]) :: rest
    else (k, vs) :: Map.subscript_push_back rest key element

/-- The number of elements a map holds, over all its sequences. -/
def Map.total_size {K V : Type} (m : Map K V) : Nat :=
  (m.map (fun entry => entry.2.length)).sum

/-- The function `Util::group_by` (vcpkg_Util.h, 49-57):
`for (const V& element : cont) { K key = f(element); (*output)[key].push_back(&element); }`. -/
def group_by {K V : Type} [DecidableEq K] (cont : List V) (output : Map K V) (f : V → K) :
    Map K V :=
  match cont with
  | [] => output
  | element :: rest =>
    let key := f element
    group_by rest (Map.subscript_push_back output key element) f

end Util

/-! ## Auxiliary lemmas -/

theorem from_name_and_triplet_ok (d : String) (t : Triplet) (h : d ≠ "") :
    PackageSpec.from_name_and_triplet d t = Except.ok { name := d, triplet := t } := by
  simp [PackageSpec.from_name_and_triplet, h]

theorem from_name_and_triplet_error_iff (d : String) (t : Triplet) :
    (∃ e, PackageSpec.from_name_and_triplet d t = Except.error e) ↔ d = "" := by
  unfold PackageSpec.from_name_and_triplet
  by_cases h : d = ""
  · simp only [h, if_true, iff_true]
    exact ⟨ParseError.Malformed, trivial⟩
  · simp [h]

theorem from_name_and_triplet_ok_iff (d : String) (t : Triplet) :
    (∃ p, PackageSpec.from_name_and_triplet d t = Except.ok p) ↔ d ≠ "" := by
  unfold PackageSpec.from_name_and_triplet
  by_cases h : d = "" <;> simp [h]

/-- The loop either stops at a missing dependency without a name, or yields the
accumulator followed by the specs of the missing dependencies, in order. -/
theorem collect_missing_specs_eq (db : StatusParagraphs) (t : Triplet) :
    ∀ (deps : List String) (acc : List PackageSpec),
      collect_missing_specs db t deps acc =
        if ∃ d ∈ deps, (db.find_installed d t).isNone = true ∧ d = "" then none
        else some (acc ++ (deps.filter (fun d => (db.find_installed d t).isNone)).map
          (fun d => ({ name := d, triplet := t } : PackageSpec))) := by
  intro deps
  induction deps with
  | nil => intro acc; simp [collect_missing_specs]
  | cons d rest ih =>
    intro acc
    unfold collect_missing_specs
    by_cases hd : (db.find_installed d t).isNone = true
    · by_cases hn : d = ""
      · subst hn
        have : PackageSpec.from_name_and_triplet "" t = Except.error ParseError.Malformed := by
          simp [PackageSpec.from_name_and_triplet]
        have hex : ∃ x ∈ "" :: rest, (db.find_installed x t).isNone = true ∧ x = "" :=
          ⟨"", List.mem_cons_self _ _, hd, rfl⟩
        rw [if_pos hd, this, if_pos hex]
      · rw [if_pos hd, from_name_and_triplet_ok d t hn]
        simp only [ih]
        by_cases hex : ∃ d ∈ rest, (db.find_installed d t).isNone = true ∧ d = ""
        · have hex2 : ∃ x ∈ d :: rest, (db.find_installed x t).isNone = true ∧ x = "" := by
            obtain ⟨x, hx, hx2⟩ := hex
            exact ⟨x, List.mem_cons_of_mem _ hx, hx2⟩
          rw [if_pos hex, if_pos hex2]
        · have hex2 : ¬ ∃ x ∈ d :: rest, (db.find_installed x t).isNone = true ∧ x = "" := by
            rintro ⟨x, hx, hx2, hx3⟩
            rcases List.mem_cons.mp hx with rfl | hx
            · exact hn hx3
            · exact hex ⟨x, hx, hx2, hx3⟩
          rw [if_neg hex, if_neg hex2]
          simp [List.filter_cons, hd]
    · rw [if_neg hd]
      simp only [ih]
      by_cases hex : ∃ d ∈ rest, (db.find_installed d t).isNone = true ∧ d = ""
      · have hex2 : ∃ x ∈ d :: rest, (db.find_installed x t).isNone = true ∧ x = "" := by
          obtain ⟨x, hx, hx2⟩ := hex
          exact ⟨x, List.mem_cons_of_mem _ hx, hx2⟩
        rw [if_pos hex, if_pos hex2]
      · have hex2 : ¬ ∃ x ∈ d :: rest, (db.find_installed x t).isNone = true ∧ x = "" := by
          rintro ⟨x, hx, hx2, hx3⟩
          rcases List.mem_cons.mp hx with rfl | hx
          · exact hd hx2
          · exact hex ⟨x, hx, hx2, hx3⟩
        rw [if_neg hex, if_neg hex2]
        simp [List.filter_cons, hd]

/-- The names kept by `collapse_duplicates` are pairwise distinct and none of
them was seen before. -/
theorem collapse_duplicates_nodup :
    ∀ (l seen : List String),
      (collapse_duplicates seen l).Nodup ∧ ∀ x ∈ collapse_duplicates seen l, x ∉ seen := by
  intro l
  induction l with
  | nil => intro seen; simp [collapse_duplicates]
  | cons a l ih =>
    intro seen
    unfold collapse_duplicates
    by_cases ha : a ∈ seen
    · rw [if_pos ha]; exact ih seen
    · rw [if_neg ha]
      obtain ⟨h1, h2⟩ := ih (a :: seen)
      refine ⟨List.nodup_cons.mpr ⟨?_, h1⟩, ?_⟩
      · intro hmem
        exact h2 a hmem (List.mem_cons_self _ _)
      · intro x hx
        rcases List.mem_cons.mp hx with rfl | hx
        · exact ha
        · intro hxs
          exact h2 x hx (List.mem_cons_of_mem _ hxs)

theorem filter_dependencies_nodup (env : Env) (depends : List Dependency) (t : Triplet) :
    (filter_dependencies env depends t).Nodup :=
  (collapse_duplicates_nodup _ []).1

/-- A call with inconsistent arguments stops at the first check. -/
theorem build_package_of_name_ne (env : Env) (sp : SourceParagraph) (spec : PackageSpec)
    (paths : VcpkgPaths) (port_dir : Path) (w : World) (hname : spec.name ≠ sp.name) :
    build_package env sp spec paths port_dir w = (Outcome.exited, w) := by
  unfold build_package
  rw [if_pos hname]

/-- With consistent arguments, a missing dependency without a name stops the
process inside the dependency loop. -/
theorem build_package_of_unnamed (env : Env) (sp : SourceParagraph) (spec : PackageSpec)
    (paths : VcpkgPaths) (port_dir : Path) (w : World) (hname : spec.name = sp.name)
    (hbad : ∃ d ∈ filter_dependencies env sp.depends spec.triplet,
      (w.status_db.find_installed d spec.triplet).isNone = true ∧ d = "") :
    build_package env sp spec paths port_dir w = (Outcome.exited, w) := by
  unfold build_package
  rw [if_neg (not_not.mpr hname)]
  simp only [collect_missing_specs_eq]
  rw [if_pos hbad]

/-- With consistent arguments and every missing dependency named, a nonempty
list of missing dependencies is handed back as the cascade result. -/
theorem build_package_of_missing (env : Env) (sp : SourceParagraph) (spec : PackageSpec)
    (paths : VcpkgPaths) (port_dir : Path) (w : World) (hname : spec.name = sp.name)
    (hgood : ¬ ∃ d ∈ filter_dependencies env sp.depends spec.triplet,
      (w.status_db.find_installed d spec.triplet).isNone = true ∧ d = "")
    (hmiss : ((filter_dependencies env sp.depends spec.triplet).filter
      (fun d => (w.status_db.find_installed d spec.triplet).isNone)) ≠ []) :
    build_package env sp spec paths port_dir w =
      (Outcome.returned
        { code := BuildResult.CASCADED_DUE_TO_MISSING_DEPENDENCIES
          unmet_dependencies :=
            ((filter_dependencies env sp.depends spec.triplet).filter
              (fun d => (w.status_db.find_installed d spec.triplet).isNone)).map
              (fun d => ({ name := d, triplet := spec.triplet } : PackageSpec)) }, w) := by
  unfold build_package
  rw [if_neg (not_not.mpr hname)]
  simp only [collect_missing_specs_eq]
  rw [if_neg hgood]
  have hne : (([] : List PackageSpec) ++
      ((filter_dependencies env sp.depends spec.triplet).filter
        (fun d => (w.status_db.find_installed d spec.triplet).isNone)).map
        (fun d => ({ name := d, triplet := spec.triplet } : PackageSpec))).isEmpty = false := by
    cases hl : ((filter_dependencies env sp.depends spec.triplet).filter
        (fun d => (w.status_db.find_installed d spec.triplet).isNone)) with
    | nil => exact absurd hl hmiss
    | cons a l => rfl
  rw [List.nil_append] at hne
  simp only [List.nil_append, hne, Bool.not_false, if_true]

/-- With consistent arguments and nothing missing, the external build runs and
its answer, then the lint's, decide the result. -/
theorem build_package_of_installed (env : Env) (sp : SourceParagraph) (spec : PackageSpec)
    (paths : VcpkgPaths) (port_dir : Path) (w : World) (hname : spec.name = sp.name)
    (hmiss : ((filter_dependencies env sp.depends spec.triplet).filter
      (fun d => (w.status_db.find_installed d spec.triplet).isNone)) = []) :
    build_package env sp spec paths port_dir w =
      match env.cmd_execute_clean (build_command env sp spec paths port_dir) with
      | Outcome.exited =>
        (Outcome.exited,
          { status_db := w.status_db
            trace := w.trace ++
              [Event.cmd_execute_clean (build_command env sp spec paths port_dir)] })
      | Outcome.returned return_code =>
        if return_code ≠ 0 then
          (Outcome.returned { code := BuildResult.BUILD_FAILED, unmet_dependencies := [] },
            { status_db := w.status_db
              trace := w.trace ++
                [Event.cmd_execute_clean (build_command env sp spec paths port_dir),
                 Event.track_metric ("buildtimeus-" ++ spec.to_string) env.buildtimeus,
                 Event.track_property "error" "build failed",
                 Event.track_property "build_error" spec.to_string] })
        else if env.perform_all_checks spec paths ≠ 0 then
          (Outcome.returned
            { code := BuildResult.POST_BUILD_CHECKS_FAILED, unmet_dependencies := [] },
            { status_db := w.status_db
              trace := w.trace ++
                [Event.cmd_execute_clean (build_command env sp spec paths port_dir),
                 Event.track_metric ("buildtimeus-" ++ spec.to_string) env.buildtimeus,
                 Event.perform_all_checks spec] })
        else
          (Outcome.returned { code := BuildResult.SUCCEEDED, unmet_dependencies := [] },
            { status_db := w.status_db
              trace := w.trace ++
                [Event.cmd_execute_clean (build_command env sp spec paths port_dir),
                 Event.track_metric ("buildtimeus-" ++ spec.to_string) env.buildtimeus,
                 Event.perform_all_checks spec,
                 Event.write_contents
                   ((paths.packages.append
                     (env.dir (BinaryParagraph.from_source env sp spec.triplet))).append
                     "CONTROL")
                   (env.serialize (BinaryParagraph.from_source env sp spec.triplet))] }) := by
  have hgood : ¬ ∃ d ∈ filter_dependencies env sp.depends spec.triplet,
      (w.status_db.find_installed d spec.triplet).isNone = true ∧ d = "" := by
    rintro ⟨d, hd, hd2, _⟩
    have : d ∈ ((filter_dependencies env sp.depends spec.triplet).filter
      (fun d => (w.status_db.find_installed d spec.triplet).isNone)) :=
      List.mem_filter.mpr ⟨hd, hd2⟩
    rw [hmiss] at this
    exact absurd this (List.not_mem_nil _)
  unfold build_package
  rw [if_neg (not_not.mpr hname)]
  simp only [collect_missing_specs_eq]
  rw [if_neg hgood, hmiss]
  simp only [List.map_nil, List.append_nil, List.isEmpty_nil, Bool.not_true,
    Bool.false_eq_true, if_false]
  cases hc : env.cmd_execute_clean (build_command env sp spec paths port_dir) with
  | exited => simp [World.emit]
  | returned rc =>
    by_cases hrc : rc = 0
    · by_cases hl : env.perform_all_checks spec paths = 0
      · simp [World.emit, create_binary_control_file, hrc, hl]
      · simp [World.emit, hrc, hl]
    · simp [World.emit, hrc]

/-- Nothing is missing exactly when every filtered dependency is found. -/
theorem missing_eq_nil_iff (env : Env) (sp : SourceParagraph) (spec : PackageSpec)
    (w : World) :
    ((filter_dependencies env sp.depends spec.triplet).filter
      (fun d => (w.status_db.find_installed d spec.triplet).isNone)) = [] ↔
    ∀ d ∈ filter_dependencies env sp.depends spec.triplet,
      (w.status_db.find_installed d spec.triplet).isSome = true := by
  rw [List.filter_eq_nil_iff]
  constructor
  · intro h d hd
    have := h d hd
    cases hf : w.status_db.find_installed d spec.triplet with
    | none => simp [hf] at this
    | some e => rfl
  · intro h d hd
    have := h d hd
    cases hf : w.status_db.find_installed d spec.triplet with
    | none => simp [hf] at this
    | some e => simp

/-- Whenever `build_package` hands back a result, the arguments were consistent,
no missing dependency was unnamed, and either the result is the cascade carrying
the missing specs with the world untouched, or nothing was missing and the result
carries an empty list under a code other than the cascade one. -/
theorem build_package_returned_cases (env : Env) (sp : SourceParagraph) (spec : PackageSpec)
    (paths : VcpkgPaths) (port_dir : Path) (w w' : World) (r : ExtendedBuildResult)
    (h : build_package env sp spec paths port_dir w = (Outcome.returned r, w')) :
    spec.name = sp.name ∧
    (¬ ∃ d ∈ filter_dependencies env sp.depends spec.triplet,
      (w.status_db.find_installed d spec.triplet).isNone = true ∧ d = "") ∧
    ((((filter_dependencies env sp.depends spec.triplet).filter
          (fun d => (w.status_db.find_installed d spec.triplet).isNone)) ≠ [] ∧
        r = { code := BuildResult.CASCADED_DUE_TO_MISSING_DEPENDENCIES
              unmet_dependencies :=
                ((filter_dependencies env sp.depends spec.triplet).filter
                  (fun d => (w.status_db.find_installed d spec.triplet).isNone)).map
                  (fun d => ({ name := d, triplet := spec.triplet } : PackageSpec)) } ∧
        w' = w) ∨
      (((filter_dependencies env sp.depends spec.triplet).filter
          (fun d => (w.status_db.find_installed d spec.triplet).isNone)) = [] ∧
        r.unmet_dependencies = [] ∧
        r.code ≠ BuildResult.CASCADED_DUE_TO_MISSING_DEPENDENCIES)) := by
  by_cases hname : spec.name = sp.name
  swap
  · rw [build_package_of_name_ne env sp spec paths port_dir w hname] at h
    simp at h
  by_cases hbad : ∃ d ∈ filter_dependencies env sp.depends spec.triplet,
      (w.status_db.find_installed d spec.triplet).isNone = true ∧ d = ""
  · rw [build_package_of_unnamed env sp spec paths port_dir w hname hbad] at h
    simp at h
  refine ⟨hname, hbad, ?_⟩
  by_cases hmiss : ((filter_dependencies env sp.depends spec.triplet).filter
      (fun d => (w.status_db.find_installed d spec.triplet).isNone)) = []
  · right
    refine ⟨hmiss, ?_⟩
    rw [build_package_of_installed env sp spec paths port_dir w hname hmiss] at h
    cases hc : env.cmd_execute_clean (build_command env sp spec paths port_dir) with
    | exited => rw [hc] at h; simp at h
    | returned rc =>
      rw [hc] at h
      simp only at h
      split_ifs at h <;>
      · obtain ⟨hr, _⟩ := Prod.mk.inj h
        have hr2 := Outcome.returned.inj hr
        subst hr2
        simp
  · left
    rw [build_package_of_missing env sp spec paths port_dir w hname hbad hmiss] at h
    obtain ⟨hr, hw⟩ := Prod.mk.inj h
    exact ⟨hmiss, (Outcome.returned.inj hr).symm, hw.symm⟩

/-- A call that adds the invocation of the build command to the trace had
consistent arguments and found no filtered dependency missing: on every other
path the world is handed back untouched. -/
theorem build_package_of_build_invoked (env : Env) (sp : SourceParagraph)
    (spec : PackageSpec) (paths : VcpkgPaths) (port_dir : Path) (w : World)
    (h : ∃ rest : List Event,
      (build_package env sp spec paths port_dir w).2.trace =
        w.trace ++ Event.cmd_execute_clean (build_command env sp spec paths port_dir) :: rest) :
    spec.name = sp.name ∧
    ((filter_dependencies env sp.depends spec.triplet).filter
      (fun d => (w.status_db.find_installed d spec.triplet).isNone)) = [] := by
  obtain ⟨rest, htrace⟩ := h
  have huntouched : (build_package env sp spec paths port_dir w).2 = w → False := by
    intro hw
    rw [hw] at htrace
    have := List.self_eq_append_right.mp htrace
    exact List.cons_ne_nil _ _ this
  by_cases hname : spec.name = sp.name
  swap
  · exact absurd (by rw [build_package_of_name_ne env sp spec paths port_dir w hname])
      huntouched
  by_cases hbad : ∃ d ∈ filter_dependencies env sp.depends spec.triplet,
      (w.status_db.find_installed d spec.triplet).isNone = true ∧ d = ""
  · exact absurd (by rw [build_package_of_unnamed env sp spec paths port_dir w hname hbad])
      huntouched
  by_cases hmiss : ((filter_dependencies env sp.depends spec.triplet).filter
      (fun d => (w.status_db.find_installed d spec.triplet).isNone)) = []
  · exact ⟨hname, hmiss⟩
  · exact absurd
      (by rw [build_package_of_missing env sp spec paths port_dir w hname hbad hmiss])
      huntouched

/-! ## Claims -/

/-- C1: whenever `build_package` returns a result, its `unmet_dependencies` is the
list obtained by walking `filter_dependencies(source_paragraph.depends, triplet)`
in order, keeping the names that `find_installed` does not find and mapping each
to the spec `(name, triplet)`; the list is empty for every code other than
`CASCADED_DUE_TO_MISSING_DEPENDENCIES`. -/
theorem build_package_unmet_dependencies (env : Env) (sp : SourceParagraph)
    (spec : PackageSpec) (paths : VcpkgPaths) (port_dir : Path) (w w' : World)
    (r : ExtendedBuildResult)
    (h : build_package env sp spec paths port_dir w = (Outcome.returned r, w')) :
    r.unmet_dependencies =
        ((filter_dependencies env sp.depends spec.triplet).filter
          (fun d => (w.status_db.find_installed d spec.triplet).isNone)).map
          (fun d => ({ name := d, triplet := spec.triplet } : PackageSpec)) ∧
      (r.code ≠ BuildResult.CASCADED_DUE_TO_MISSING_DEPENDENCIES →
        r.unmet_dependencies = []) := by
  obtain ⟨_, _, hc⟩ := build_package_returned_cases env sp spec paths port_dir w w' r h
  rcases hc with ⟨_, hr, _⟩ | ⟨hmiss, hr, _⟩
  · subst hr
    exact ⟨rfl, fun hne => absurd rfl hne⟩
  · rw [hmiss, hr]
    exact ⟨rfl, fun _ => rfl⟩

/-- C1, on the scenario `zlib:x64-windows` with `libpng` missing: the call
returns and carries exactly `[libpng:x64-windows]`. -/
theorem build_package_unmet_dependencies_witness :
    build_package (sample_env 0 0) zlib_source zlib_spec sample_paths zlib_port_dir
        world_bzip2 =
      (Outcome.returned
        { code := BuildResult.CASCADED_DUE_TO_MISSING_DEPENDENCIES
          unmet_dependencies := [{ name := "libpng", triplet := x64_windows }] },
        world_bzip2) ∧
    ([{ name := "libpng", triplet := x64_windows }] : List PackageSpec) =
        ((filter_dependencies (sample_env 0 0) zlib_source.depends zlib_spec.triplet).filter
          (fun d => (world_bzip2.status_db.find_installed d zlib_spec.triplet).isNone)).map
          (fun d => ({ name := d, triplet := zlib_spec.triplet } : PackageSpec)) :=
  ⟨by decide,
    (build_package_unmet_dependencies (sample_env 0 0) zlib_source zlib_spec sample_paths
      zlib_port_dir world_bzip2 world_bzip2
      { code := BuildResult.CASCADED_DUE_TO_MISSING_DEPENDENCIES
        unmet_dependencies := [{ name := "libpng", triplet := x64_windows }] }
      (by decide)).1⟩

/-- C2 fails as stated: with `spec.name() != source_paragraph.name` the filtered
dependency `libpng` is not installed, yet `build_package` does not return the
cascade result: `Checks::check_exit` ends the process first. -/
theorem build_package_cascade_counterexample :
    (∃ d ∈ filter_dependencies (sample_env 0 0) zlib2_source_libpng.depends zlib_spec.triplet,
        world_bzip2.status_db.find_installed d zlib_spec.triplet = none) ∧
    build_package (sample_env 0 0) zlib2_source_libpng zlib_spec sample_paths zlib_port_dir
        world_bzip2 = (Outcome.exited, world_bzip2) ∧
    ¬ ((∃ r w', build_package (sample_env 0 0) zlib2_source_libpng zlib_spec sample_paths
            zlib_port_dir world_bzip2 = (Outcome.returned r, w') ∧
          r.code = BuildResult.CASCADED_DUE_TO_MISSING_DEPENDENCIES) ↔
        ∃ d ∈ filter_dependencies (sample_env 0 0) zlib2_source_libpng.depends
            zlib_spec.triplet,
          world_bzip2.status_db.find_installed d zlib_spec.triplet = none) := by
  have hmiss : ∃ d ∈ filter_dependencies (sample_env 0 0) zlib2_source_libpng.depends
      zlib_spec.triplet, world_bzip2.status_db.find_installed d zlib_spec.triplet = none :=
    ⟨"libpng", by decide, by decide⟩
  have hrun : build_package (sample_env 0 0) zlib2_source_libpng zlib_spec sample_paths
      zlib_port_dir world_bzip2 = (Outcome.exited, world_bzip2) := by decide
  refine ⟨hmiss, hrun, ?_⟩
  intro hiff
  obtain ⟨r, w', h, _⟩ := hiff.mpr hmiss
  rw [hrun] at h
  simp at h

/-- C2, amended: when `spec.name() == source_paragraph.name` and every filtered
dependency that is not installed forms a valid `PackageSpec`, `build_package`
returns `CASCADED_DUE_TO_MISSING_DEPENDENCIES` if and only if at least one
filtered dependency is not found by `find_installed`; whenever it returns that
code the world is untouched (no external build, no lint, no file write); and in
the scenario `zlib:x64-windows` with `bzip2` installed and `libpng` absent the
result is the cascade carrying `[libpng:x64-windows]`. -/
theorem build_package_cascade_iff (env : Env) (sp : SourceParagraph) (spec : PackageSpec)
    (paths : VcpkgPaths) (port_dir : Path) (w : World)
    (hname : spec.name = sp.name)
    (hvalid : ∀ d ∈ filter_dependencies env sp.depends spec.triplet,
      w.status_db.find_installed d spec.triplet = none →
      ∃ p, PackageSpec.from_name_and_triplet d spec.triplet = Except.ok p) :
    ((∃ r w', build_package env sp spec paths port_dir w = (Outcome.returned r, w') ∧
          r.code = BuildResult.CASCADED_DUE_TO_MISSING_DEPENDENCIES) ↔
        ∃ d ∈ filter_dependencies env sp.depends spec.triplet,
          w.status_db.find_installed d spec.triplet = none) ∧
    (∀ r w', build_package env sp spec paths port_dir w = (Outcome.returned r, w') →
        r.code = BuildResult.CASCADED_DUE_TO_MISSING_DEPENDENCIES →
        w' = w ∧ w'.trace = w.trace) ∧
    (∀ env' : Env, env'.qualifier_satisfied "x64-windows" x64_windows = true →
      build_package env' zlib_source zlib_spec sample_paths zlib_port_dir world_bzip2 =
        (Outcome.returned
          { code := BuildResult.CASCADED_DUE_TO_MISSING_DEPENDENCIES
            unmet_dependencies := [{ name := "libpng", triplet := x64_windows }] },
          world_bzip2)) := by
  have hgood : ¬ ∃ d ∈ filter_dependencies env sp.depends spec.triplet,
      (w.status_db.find_installed d spec.triplet).isNone = true ∧ d = "" := by
    rintro ⟨d, hd, hd2, hd3⟩
    have hnone : w.status_db.find_installed d spec.triplet = none :=
      Option.isNone_iff_eq_none.mp hd2
    exact (from_name_and_triplet_ok_iff d spec.triplet).mp (hvalid d hd hnone) hd3
  refine ⟨⟨?_, ?_⟩, ?_, ?_⟩
  · rintro ⟨r, w', h, hcode⟩
    obtain ⟨_, _, hc⟩ := build_package_returned_cases env sp spec paths port_dir w w' r h
    rcases hc with ⟨hmiss, _, _⟩ | ⟨_, _, hne⟩
    · obtain ⟨d, hd⟩ := List.exists_mem_of_ne_nil _ hmiss
      obtain ⟨hd1, hd2⟩ := List.mem_filter.mp hd
      exact ⟨d, hd1, Option.isNone_iff_eq_none.mp hd2⟩
    · exact absurd hcode hne
  · rintro ⟨d, hd, hnone⟩
    have hmiss : ((filter_dependencies env sp.depends spec.triplet).filter
        (fun d => (w.status_db.find_installed d spec.triplet).isNone)) ≠ [] := by
      apply List.ne_nil_of_mem (a := d)
      exact List.mem_filter.mpr ⟨hd, Option.isNone_iff_eq_none.mpr hnone⟩
    exact ⟨_, w, build_package_of_missing env sp spec paths port_dir w hname hgood hmiss, rfl⟩
  · intro r w' h hcode
    obtain ⟨_, _, hc⟩ := build_package_returned_cases env sp spec paths port_dir w w' r h
    rcases hc with ⟨_, _, hw⟩ | ⟨_, _, hne⟩
    · exact ⟨hw, by rw [hw]⟩
    · exact absurd hcode hne
  · intro env' hq
    have hf : filter_dependencies env' zlib_source.depends zlib_spec.triplet =
        ["libpng", "bzip2"] := by
      simp [filter_dependencies, zlib_source, zlib_spec, hq, collapse_duplicates]
    have hfilter : ((filter_dependencies env' zlib_source.depends zlib_spec.triplet).filter
        (fun d => (world_bzip2.status_db.find_installed d zlib_spec.triplet).isNone)) =
        ["libpng"] := by
      rw [hf]; decide
    have hgood' : ¬ ∃ d ∈ filter_dependencies env' zlib_source.depends zlib_spec.triplet,
        (world_bzip2.status_db.find_installed d zlib_spec.triplet).isNone = true ∧ d = "" := by
      rw [hf]; decide
    have := build_package_of_missing env' zlib_source zlib_spec sample_paths zlib_port_dir
      world_bzip2 rfl hgood' (by rw [hfilter]; simp)
    rw [this, hfilter]
    rfl

/-- C2 (amended), applied to the scenario `zlib:x64-windows`: `libpng` is missing,
and the call returns the cascade with the world untouched. -/
theorem build_package_cascade_iff_witness :
    (∃ d ∈ filter_dependencies (sample_env 0 0) zlib_source.depends zlib_spec.triplet,
        world_bzip2.status_db.find_installed d zlib_spec.triplet = none) ∧
    ∃ r w', build_package (sample_env 0 0) zlib_source zlib_spec sample_paths zlib_port_dir
        world_bzip2 = (Outcome.returned r, w') ∧
      r.code = BuildResult.CASCADED_DUE_TO_MISSING_DEPENDENCIES :=
  have hmiss : ∃ d ∈ filter_dependencies (sample_env 0 0) zlib_source.depends
      zlib_spec.triplet, world_bzip2.status_db.find_installed d zlib_spec.triplet = none :=
    ⟨"libpng", by decide, by decide⟩
  ⟨hmiss,
    (build_package_cascade_iff (sample_env 0 0) zlib_source zlib_spec sample_paths
      zlib_port_dir world_bzip2 (by decide)
      (by
        intro d hd _
        have hne : d ≠ "" := by
          have hd2 : d ∈ ["libpng", "bzip2"] := hd
          intro hd3
          subst hd3
          revert hd2
          decide
        exact ⟨_, from_name_and_triplet_ok d _ hne⟩)).1.mpr hmiss⟩

/-- C3 fails as stated: with `spec.name() != source_paragraph.name` and every
filtered dependency installed (there is none), the external build command is
invoked zero times, and the lint is not invoked although the build would exit
with 0. -/
theorem build_package_build_once_counterexample :
    (∀ d ∈ filter_dependencies (sample_env 0 0) zlib2_source.depends zlib_spec.triplet,
        (world_both.status_db.find_installed d zlib_spec.triplet).isSome = true) ∧
    (sample_env 0 0).cmd_execute_clean
        (build_command (sample_env 0 0) zlib2_source zlib_spec sample_paths zlib_port_dir) =
      Outcome.returned 0 ∧
    build_package (sample_env 0 0) zlib2_source zlib_spec sample_paths zlib_port_dir
        world_both = (Outcome.exited, world_both) ∧
    ((build_package (sample_env 0 0) zlib2_source zlib_spec sample_paths zlib_port_dir
        world_both).2.trace.filter Event.is_cmd_execute_clean).length = 0 ∧
    Event.perform_all_checks zlib_spec ∉
      (build_package (sample_env 0 0) zlib2_source zlib_spec sample_paths zlib_port_dir
        world_both).2.trace := by
  refine ⟨by decide, rfl, by decide, by decide, by decide⟩

/-- C3, amended: for every call of `build_package` with
`spec.name() == source_paragraph.name` in which all filtered dependencies are
installed, the call adds to the trace one invocation of the external build
command followed by events none of which is such an invocation (exactly once, no
retries); if the command's return code is nonzero the result is `BUILD_FAILED`
and the lint is not among the added events, and if it is zero the lint is. -/
theorem build_package_build_once (env : Env) (sp : SourceParagraph) (spec : PackageSpec)
    (paths : VcpkgPaths) (port_dir : Path) (w : World)
    (hname : spec.name = sp.name)
    (hall : ∀ d ∈ filter_dependencies env sp.depends spec.triplet,
      (w.status_db.find_installed d spec.triplet).isSome = true) :
    ∃ rest : List Event,
      (build_package env sp spec paths port_dir w).2.trace =
          w.trace ++ Event.cmd_execute_clean (build_command env sp spec paths port_dir) :: rest ∧
      (∀ e ∈ rest, e.is_cmd_execute_clean = false) ∧
      (∀ return_code : Int,
        env.cmd_execute_clean (build_command env sp spec paths port_dir) =
            Outcome.returned return_code →
          (return_code ≠ 0 →
            (build_package env sp spec paths port_dir w).1 =
                Outcome.returned
                  { code := BuildResult.BUILD_FAILED, unmet_dependencies := [] } ∧
              ∀ e ∈ rest, e.is_perform_all_checks = false) ∧
          (return_code = 0 → Event.perform_all_checks spec ∈ rest)) := by
  have hmiss := (missing_eq_nil_iff env sp spec w).mpr hall
  rw [build_package_of_installed env sp spec paths port_dir w hname hmiss]
  cases hc : env.cmd_execute_clean (build_command env sp spec paths port_dir) with
  | exited =>
    refine ⟨[], rfl, by simp, ?_⟩
    intro rc hrc
    exact absurd hrc (by simp)
  | returned rc =>
    by_cases hrc : rc = 0
    · by_cases hl : env.perform_all_checks spec paths = 0
      · refine ⟨[Event.track_metric ("buildtimeus-" ++ spec.to_string) env.buildtimeus,
            Event.perform_all_checks spec,
            Event.write_contents
              ((paths.packages.append
                (env.dir (BinaryParagraph.from_source env sp spec.triplet))).append "CONTROL")
              (env.serialize (BinaryParagraph.from_source env sp spec.triplet))], ?_, ?_, ?_⟩
        · simp [hrc, hl]
        · intro e he
          simp only [List.mem_cons, List.mem_singleton] at he
          rcases he with rfl | rfl | rfl | h
          · rfl
          · rfl
          · rfl
          · simp at h
        · intro rc' hrc'
          have := Outcome.returned.inj hrc'
          subst this
          refine ⟨fun hne => absurd hrc hne, fun _ => ?_⟩
          simp
      · refine ⟨[Event.track_metric ("buildtimeus-" ++ spec.to_string) env.buildtimeus,
            Event.perform_all_checks spec], ?_, ?_, ?_⟩
        · simp [hrc, hl]
        · intro e he
          simp only [List.mem_cons, List.mem_singleton] at he
          rcases he with rfl | rfl | h
          · rfl
          · rfl
          · simp at h
        · intro rc' hrc'
          have := Outcome.returned.inj hrc'
          subst this
          refine ⟨fun hne => absurd hrc hne, fun _ => ?_⟩
          simp
    · refine ⟨[Event.track_metric ("buildtimeus-" ++ spec.to_string) env.buildtimeus,
          Event.track_property "error" "build failed",
          Event.track_property "build_error" spec.to_string], ?_, ?_, ?_⟩
      · simp [hrc]
      · intro e he
        simp only [List.mem_cons, List.mem_singleton] at he
        rcases he with rfl | rfl | rfl | h
        · rfl
        · rfl
        · rfl
        · simp at h
      · intro rc' hrc'
        have := Outcome.returned.inj hrc'
        subst this
        refine ⟨fun _ => ⟨by simp [hrc], ?_⟩, fun h0 => absurd h0 hrc⟩
        intro e he
        simp only [List.mem_cons, List.mem_singleton] at he
        rcases he with rfl | rfl | rfl | h
        · rfl
        · rfl
        · rfl
        · simp at h

/-- C3 (amended), applied to `zlib:x64-windows` with both dependencies installed
and a build that exits with 1: the result is `BUILD_FAILED`, the command was
invoked once and the lint not at all. -/
theorem build_package_build_once_witness :
    zlib_spec.name = zlib_source.name ∧
    (∀ d ∈ filter_dependencies (sample_env 1 0) zlib_source.depends zlib_spec.triplet,
        (world_both.status_db.find_installed d zlib_spec.triplet).isSome = true) ∧
    ∃ rest : List Event,
      (build_package (sample_env 1 0) zlib_source zlib_spec sample_paths zlib_port_dir
          world_both).2.trace =
        world_both.trace ++ Event.cmd_execute_clean
          (build_command (sample_env 1 0) zlib_source zlib_spec sample_paths zlib_port_dir)
          :: rest ∧
      (∀ e ∈ rest, e.is_cmd_execute_clean = false) ∧
      (build_package (sample_env 1 0) zlib_source zlib_spec sample_paths zlib_port_dir
          world_both).1 =
        Outcome.returned { code := BuildResult.BUILD_FAILED, unmet_dependencies := [] } ∧
      ∀ e ∈ rest, e.is_perform_all_checks = false :=
  have hall : ∀ d ∈ filter_dependencies (sample_env 1 0) zlib_source.depends
      zlib_spec.triplet,
      (world_both.status_db.find_installed d zlib_spec.triplet).isSome = true := by decide
  ⟨rfl, hall,
    match build_package_build_once (sample_env 1 0) zlib_source zlib_spec sample_paths
      zlib_port_dir world_both rfl hall with
    | ⟨rest, h1, h2, h3⟩ => ⟨rest, h1, h2, (h3 1 rfl).1 (by decide)⟩⟩

/-- C4: for every call of `build_package` in which all filtered dependencies are
installed and the external build run by the call returns 0, the lint is invoked
and the result is `POST_BUILD_CHECKS_FAILED` when the lint error count is nonzero
and `SUCCEEDED` when it is zero; hence `build_package` returns `SUCCEEDED` if and
only if no filtered dependency is missing, the build run by the call exits with
0 and the lint error count is 0. That the call runs the build is read off the
trace: the call adds the invocation of the build command to it. -/
theorem build_package_succeeded_iff (env : Env) (sp : SourceParagraph) (spec : PackageSpec)
    (paths : VcpkgPaths) (port_dir : Path) (w : World) :
    (∀ rest : List Event,
      (∀ d ∈ filter_dependencies env sp.depends spec.triplet,
        (w.status_db.find_installed d spec.triplet).isSome = true) →
      (build_package env sp spec paths port_dir w).2.trace =
        w.trace ++ Event.cmd_execute_clean (build_command env sp spec paths port_dir) :: rest →
      env.cmd_execute_clean (build_command env sp spec paths port_dir) =
        Outcome.returned 0 →
      Event.perform_all_checks spec ∈ rest ∧
      (env.perform_all_checks spec paths ≠ 0 →
        (build_package env sp spec paths port_dir w).1 =
          Outcome.returned
            { code := BuildResult.POST_BUILD_CHECKS_FAILED, unmet_dependencies := [] }) ∧
      (env.perform_all_checks spec paths = 0 →
        (build_package env sp spec paths port_dir w).1 =
          Outcome.returned
            { code := BuildResult.SUCCEEDED, unmet_dependencies := [] })) ∧
    ((∃ r w', build_package env sp spec paths port_dir w = (Outcome.returned r, w') ∧
          r.code = BuildResult.SUCCEEDED) ↔
      ((∀ d ∈ filter_dependencies env sp.depends spec.triplet,
          (w.status_db.find_installed d spec.triplet).isSome = true) ∧
        (∃ rest : List Event,
          (build_package env sp spec paths port_dir w).2.trace =
            w.trace ++
              Event.cmd_execute_clean (build_command env sp spec paths port_dir) :: rest) ∧
        env.cmd_execute_clean (build_command env sp spec paths port_dir) =
          Outcome.returned 0 ∧
        env.perform_all_checks spec paths = 0)) := by
  have key : ∀ rest : List Event,
      (build_package env sp spec paths port_dir w).2.trace =
        w.trace ++ Event.cmd_execute_clean (build_command env sp spec paths port_dir) :: rest →
      env.cmd_execute_clean (build_command env sp spec paths port_dir) =
        Outcome.returned 0 →
      Event.perform_all_checks spec ∈ rest ∧
      (env.perform_all_checks spec paths ≠ 0 →
        (build_package env sp spec paths port_dir w).1 =
          Outcome.returned
            { code := BuildResult.POST_BUILD_CHECKS_FAILED, unmet_dependencies := [] }) ∧
      (env.perform_all_checks spec paths = 0 →
        (build_package env sp spec paths port_dir w).1 =
          Outcome.returned
            { code := BuildResult.SUCCEEDED, unmet_dependencies := [] }) := by
    intro rest htrace hc
    obtain ⟨hname, hmiss⟩ :=
      build_package_of_build_invoked env sp spec paths port_dir w ⟨rest, htrace⟩
    rw [build_package_of_installed env sp spec paths port_dir w hname hmiss, hc] at htrace ⊢
    by_cases hl : env.perform_all_checks spec paths = 0
    · simp only [hl, ne_eq, not_true_eq_false, if_false] at htrace ⊢
      have hrest := List.cons.inj (List.append_cancel_left htrace)
      rw [← hrest.2]
      simp
    · simp only [hl, ne_eq, not_true_eq_false, not_false_eq_true, if_false, if_true]
        at htrace ⊢
      have hrest := List.cons.inj (List.append_cancel_left htrace)
      rw [← hrest.2]
      simp
  refine ⟨fun rest _ htrace hc => key rest htrace hc, ⟨?_, ?_⟩⟩
  · rintro ⟨r, w', h, hcode⟩
    obtain ⟨hname, _, hcases⟩ :=
      build_package_returned_cases env sp spec paths port_dir w w' r h
    rcases hcases with ⟨_, hr, _⟩ | ⟨hmiss, _, _⟩
    · rw [hr] at hcode
      simp at hcode
    · have hall := (missing_eq_nil_iff env sp spec w).mp hmiss
      refine ⟨hall, ?_⟩
      have heq := build_package_of_installed env sp spec paths port_dir w hname hmiss
      rw [heq] at h
      cases hc : env.cmd_execute_clean (build_command env sp spec paths port_dir) with
      | exited => rw [hc] at h; simp at h
      | returned rc =>
        rw [hc] at h
        simp only at h
        split_ifs at h with h1 h2
        · obtain ⟨hr, _⟩ := Prod.mk.inj h
          have hr2 := Outcome.returned.inj hr
          rw [← hr2] at hcode
          exact absurd hcode (by decide)
        · obtain ⟨hr, _⟩ := Prod.mk.inj h
          have hr2 := Outcome.returned.inj hr
          rw [← hr2] at hcode
          exact absurd hcode (by decide)
        · have hrc : rc = 0 := not_not.mp h1
          have hl : env.perform_all_checks spec paths = 0 := not_not.mp h2
          refine ⟨⟨[Event.track_metric ("buildtimeus-" ++ spec.to_string) env.buildtimeus,
              Event.perform_all_checks spec,
              Event.write_contents
                ((paths.packages.append
                  (env.dir (BinaryParagraph.from_source env sp spec.triplet))).append "CONTROL")
                (env.serialize (BinaryParagraph.from_source env sp spec.triplet))], ?_⟩,
            by rw [hrc], hl⟩
          rw [heq, hc]
          simp [hrc, hl]
  · rintro ⟨_, ⟨rest, htrace⟩, hc, hl⟩
    have h1 := (key rest htrace hc).2.2 hl
    exact ⟨_, (build_package env sp spec paths port_dir w).2, Prod.ext h1 rfl, rfl⟩

/-- C4, applied to `zlib:x64-windows` with both dependencies installed, a build
exiting with 0 and a clean lint: the call runs the build and returns
`SUCCEEDED`. -/
theorem build_package_succeeded_iff_witness :
    (∀ d ∈ filter_dependencies (sample_env 0 0) zlib_source.depends zlib_spec.triplet,
        (world_both.status_db.find_installed d zlib_spec.triplet).isSome = true) ∧
    (build_package (sample_env 0 0) zlib_source zlib_spec sample_paths zlib_port_dir
        world_both).2.trace =
      world_both.trace ++
        Event.cmd_execute_clean
          (build_command (sample_env 0 0) zlib_source zlib_spec sample_paths zlib_port_dir) ::
        [Event.track_metric "buildtimeus-zlib:x64-windows" 1000,
         Event.perform_all_checks zlib_spec,
         Event.write_contents ["vcpkg", "packages", "zlib_x64-windows", "CONTROL"]
           "Package: zlib"] ∧
    (sample_env 0 0).cmd_execute_clean
        (build_command (sample_env 0 0) zlib_source zlib_spec sample_paths zlib_port_dir) =
      Outcome.returned 0 ∧
    (build_package (sample_env 0 0) zlib_source zlib_spec sample_paths zlib_port_dir
        world_both).1 =
      Outcome.returned { code := BuildResult.SUCCEEDED, unmet_dependencies := [] } ∧
    ∃ r w', build_package (sample_env 0 0) zlib_source zlib_spec sample_paths zlib_port_dir
        world_both = (Outcome.returned r, w') ∧ r.code = BuildResult.SUCCEEDED :=
  have hall : ∀ d ∈ filter_dependencies (sample_env 0 0) zlib_source.depends
      zlib_spec.triplet,
      (world_both.status_db.find_installed d zlib_spec.triplet).isSome = true := by decide
  have htrace : (build_package (sample_env 0 0) zlib_source zlib_spec sample_paths
      zlib_port_dir world_both).2.trace =
      world_both.trace ++
        Event.cmd_execute_clean
          (build_command (sample_env 0 0) zlib_source zlib_spec sample_paths zlib_port_dir) ::
        [Event.track_metric "buildtimeus-zlib:x64-windows" 1000,
         Event.perform_all_checks zlib_spec,
         Event.write_contents ["vcpkg", "packages", "zlib_x64-windows", "CONTROL"]
           "Package: zlib"] := by decide
  have h := build_package_succeeded_iff (sample_env 0 0) zlib_source zlib_spec sample_paths
    zlib_port_dir world_both
  ⟨hall, htrace, rfl, ((h.1 _ hall htrace rfl).2.2 rfl),
    h.2.mpr ⟨hall, ⟨_, htrace⟩, rfl, rfl⟩⟩

/-- C5: on every run of `build_package` that returns `SUCCEEDED`, the events added
to the trace end with one `write_contents`, of the text
`Strings::serialize(BinaryParagraph(source_paragraph, spec.triplet()))` to the
path `packages / bpgh.dir() / "CONTROL"`; no other added event is a file write,
and the lint invocation is among the events before it. -/
theorem build_package_succeeded_writes_control (env : Env) (sp : SourceParagraph)
    (spec : PackageSpec) (paths : VcpkgPaths) (port_dir : Path) (w w' : World)
    (r : ExtendedBuildResult)
    (h : build_package env sp spec paths port_dir w = (Outcome.returned r, w'))
    (hcode : r.code = BuildResult.SUCCEEDED) :
    ∃ before : List Event,
      w'.trace = w.trace ++ before ++
        [Event.write_contents
          ((paths.packages.append
            (env.dir (BinaryParagraph.from_source env sp spec.triplet))).append "CONTROL")
          (env.serialize (BinaryParagraph.from_source env sp spec.triplet))] ∧
      (∀ e ∈ before, e.is_write_contents = false) ∧
      Event.perform_all_checks spec ∈ before := by
  obtain ⟨hname, _, hcases⟩ := build_package_returned_cases env sp spec paths port_dir w w' r h
  rcases hcases with ⟨_, hr, _⟩ | ⟨hmiss, _, _⟩
  · rw [hr] at hcode
    simp at hcode
  · rw [build_package_of_installed env sp spec paths port_dir w hname hmiss] at h
    cases hc : env.cmd_execute_clean (build_command env sp spec paths port_dir) with
    | exited => rw [hc] at h; simp at h
    | returned rc =>
      rw [hc] at h
      simp only at h
      split_ifs at h with h1 h2
      · obtain ⟨hr, _⟩ := Prod.mk.inj h
        have hr2 := Outcome.returned.inj hr
        rw [← hr2] at hcode
        exact absurd hcode (by decide)
      · obtain ⟨hr, _⟩ := Prod.mk.inj h
        have hr2 := Outcome.returned.inj hr
        rw [← hr2] at hcode
        exact absurd hcode (by decide)
      · obtain ⟨_, hw⟩ := Prod.mk.inj h
        refine ⟨[Event.cmd_execute_clean (build_command env sp spec paths port_dir),
          Event.track_metric ("buildtimeus-" ++ spec.to_string) env.buildtimeus,
          Event.perform_all_checks spec], ?_, ?_, ?_⟩
        · rw [← hw]
          simp
        · intro e he
          simp only [List.mem_cons, List.mem_singleton] at he
          rcases he with rfl | rfl | rfl | hf
          · rfl
          · rfl
          · rfl
          · simp at hf
        · simp

/-- C5, applied to the successful build of `zlib:x64-windows`: the trace is the
build command, the metric, the lint and then the write of the CONTROL file under
`packages/zlib_x64-windows`. -/
theorem build_package_succeeded_writes_control_witness :
    build_package (sample_env 0 0) zlib_source zlib_spec sample_paths zlib_port_dir
        world_both =
      (Outcome.returned { code := BuildResult.SUCCEEDED, unmet_dependencies := [] },
        { status_db := world_both.status_db
          trace :=
            [Event.cmd_execute_clean "\"vcvarsall.bat\" x64  >nul 2>&1 && cmake",
             Event.track_metric "buildtimeus-zlib:x64-windows" 1000,
             Event.perform_all_checks zlib_spec,
             Event.write_contents ["vcpkg", "packages", "zlib_x64-windows", "CONTROL"]
               "Package: zlib"] }) ∧
    ∃ before : List Event,
      ([Event.cmd_execute_clean "\"vcvarsall.bat\" x64  >nul 2>&1 && cmake",
        Event.track_metric "buildtimeus-zlib:x64-windows" 1000,
        Event.perform_all_checks zlib_spec,
        Event.write_contents ["vcpkg", "packages", "zlib_x64-windows", "CONTROL"]
          "Package: zlib"] : List Event) =
        world_both.trace ++ before ++
          [Event.write_contents
            ((sample_paths.packages.append
              ((sample_env 0 0).dir
                (BinaryParagraph.from_source (sample_env 0 0) zlib_source
                  zlib_spec.triplet))).append "CONTROL")
            ((sample_env 0 0).serialize
              (BinaryParagraph.from_source (sample_env 0 0) zlib_source zlib_spec.triplet))] ∧
      (∀ e ∈ before, e.is_write_contents = false) ∧
      Event.perform_all_checks zlib_spec ∈ before :=
  ⟨by decide,
    build_package_succeeded_writes_control (sample_env 0 0) zlib_source zlib_spec sample_paths
      zlib_port_dir world_both
      { status_db := world_both.status_db
        trace :=
          [Event.cmd_execute_clean "\"vcvarsall.bat\" x64  >nul 2>&1 && cmake",
           Event.track_metric "buildtimeus-zlib:x64-windows" 1000,
           Event.perform_all_checks zlib_spec,
           Event.write_contents ["vcpkg", "packages", "zlib_x64-windows", "CONTROL"]
             "Package: zlib"] }
      { code := BuildResult.SUCCEEDED, unmet_dependencies := [] } (by decide) rfl⟩

/-- C6 fails as stated: `zlib:x64-windows` is built with both dependencies
installed, the build exits with 0 and the lint is clean, the call returns
`SUCCEEDED`, and afterwards `find_installed("zlib", x64-windows)` on the status
database still finds nothing. -/
theorem build_package_marks_installed_counterexample :
    (∀ d ∈ filter_dependencies (sample_env 0 0) zlib_source.depends zlib_spec.triplet,
        (world_both.status_db.find_installed d zlib_spec.triplet).isSome = true) ∧
    (sample_env 0 0).cmd_execute_clean
        (build_command (sample_env 0 0) zlib_source zlib_spec sample_paths zlib_port_dir) =
      Outcome.returned 0 ∧
    (sample_env 0 0).perform_all_checks zlib_spec sample_paths = 0 ∧
    (build_package (sample_env 0 0) zlib_source zlib_spec sample_paths zlib_port_dir
        world_both).1 =
      Outcome.returned { code := BuildResult.SUCCEEDED, unmet_dependencies := [] } ∧
    StatusParagraphs.find_installed
        (build_package (sample_env 0 0) zlib_source zlib_spec sample_paths zlib_port_dir
          world_both).2.status_db zlib_spec.name zlib_spec.triplet = none := by
  refine ⟨by decide, rfl, rfl, by decide, by decide⟩

/-- C6, amended: if `spec.name() == source_paragraph.name`, every filtered
dependency is installed, the external build returns 0 and lint reports zero
errors, then `build_package` returns `SUCCEEDED` and leaves the status database
as it was (so `find_installed(spec.name(), spec.triplet())` answers what it
answered before the call); what it records is the binary CONTROL file, written
from a `BinaryParagraph` whose spec, version, description and maintainer match
the source paragraph's and whose depends is the triplet-filtered dependency
list. -/
theorem build_package_success_records_control (env : Env) (sp : SourceParagraph)
    (spec : PackageSpec) (paths : VcpkgPaths) (port_dir : Path) (w : World)
    (hname : spec.name = sp.name)
    (hall : ∀ d ∈ filter_dependencies env sp.depends spec.triplet,
      (w.status_db.find_installed d spec.triplet).isSome = true)
    (hbuild : env.cmd_execute_clean (build_command env sp spec paths port_dir) =
      Outcome.returned 0)
    (hlint : env.perform_all_checks spec paths = 0) :
    ∃ w' : World,
      build_package env sp spec paths port_dir w =
        (Outcome.returned { code := BuildResult.SUCCEEDED, unmet_dependencies := [] }, w') ∧
      w'.status_db = w.status_db ∧
      w'.status_db.find_installed spec.name spec.triplet =
        w.status_db.find_installed spec.name spec.triplet ∧
      ∃ bpgh : BinaryParagraph,
        bpgh.spec = spec ∧ bpgh.version = sp.version ∧ bpgh.description = sp.description ∧
        bpgh.maintainer = sp.maintainer ∧
        bpgh.depends = filter_dependencies env sp.depends spec.triplet ∧
        Event.write_contents ((paths.packages.append (env.dir bpgh)).append "CONTROL")
          (env.serialize bpgh) ∈ w'.trace := by
  have hmiss := (missing_eq_nil_iff env sp spec w).mpr hall
  rw [build_package_of_installed env sp spec paths port_dir w hname hmiss, hbuild]
  simp only [ne_eq, not_true_eq_false, if_false, hlint]
  refine ⟨_, rfl, rfl, rfl, BinaryParagraph.from_source env sp spec.triplet, ?_, rfl, rfl,
    rfl, rfl, ?_⟩
  · show ({ name := sp.name, triplet := spec.triplet } : PackageSpec) = spec
    rw [← hname]
  · simp

/-- C6 (amended), applied to the successful build of `zlib:x64-windows`. -/
theorem build_package_success_records_control_witness :
    zlib_spec.name = zlib_source.name ∧
    ∃ w' : World,
      build_package (sample_env 0 0) zlib_source zlib_spec sample_paths zlib_port_dir
          world_both =
        (Outcome.returned { code := BuildResult.SUCCEEDED, unmet_dependencies := [] }, w') ∧
      w'.status_db = world_both.status_db ∧
      ∃ bpgh : BinaryParagraph,
        bpgh.spec = zlib_spec ∧
        bpgh.depends = ["libpng", "bzip2"] ∧
        Event.write_contents ((sample_paths.packages.append ((sample_env 0 0).dir bpgh)).append
          "CONTROL") ((sample_env 0 0).serialize bpgh) ∈ w'.trace :=
  ⟨rfl,
    match build_package_success_records_control (sample_env 0 0) zlib_source zlib_spec
      sample_paths zlib_port_dir world_both rfl (by decide) rfl rfl with
    | ⟨w', h1, h2, _, bpgh, h4, _, _, _, h8, h9⟩ =>
      ⟨w', h1, h2, bpgh, h4, h8.trans (by decide), h9⟩⟩

/-- C7: for every call of `build_package` that returns `BUILD_FAILED` or
`POST_BUILD_CHECKS_FAILED`, the status database after the call equals the one
before it, and none of the events the call added to the trace is a file write
(no binary CONTROL file has been written). -/
theorem build_package_failure_no_mutation (env : Env) (sp : SourceParagraph)
    (spec : PackageSpec) (paths : VcpkgPaths) (port_dir : Path) (w w' : World)
    (r : ExtendedBuildResult)
    (h : build_package env sp spec paths port_dir w = (Outcome.returned r, w'))
    (hcode : r.code = BuildResult.BUILD_FAILED ∨
      r.code = BuildResult.POST_BUILD_CHECKS_FAILED) :
    w'.status_db = w.status_db ∧
    (∀ name triplet, w'.status_db.find_installed name triplet =
      w.status_db.find_installed name triplet) ∧
    ∃ added : List Event,
      w'.trace = w.trace ++ added ∧ ∀ e ∈ added, e.is_write_contents = false := by
  obtain ⟨hname, _, hcases⟩ := build_package_returned_cases env sp spec paths port_dir w w' r h
  rcases hcases with ⟨_, hr, _⟩ | ⟨hmiss, _, _⟩
  · rw [hr] at hcode
    simp at hcode
  · rw [build_package_of_installed env sp spec paths port_dir w hname hmiss] at h
    cases hc : env.cmd_execute_clean (build_command env sp spec paths port_dir) with
    | exited => rw [hc] at h; simp at h
    | returned rc =>
      rw [hc] at h
      simp only at h
      split_ifs at h with h1 h2
      · obtain ⟨_, hw⟩ := Prod.mk.inj h
        subst hw
        refine ⟨rfl, fun _ _ => rfl, _, rfl, ?_⟩
        intro e he
        simp only [List.mem_cons, List.mem_singleton] at he
        rcases he with rfl | rfl | rfl | rfl | hf
        · rfl
        · rfl
        · rfl
        · rfl
        · simp at hf
      · obtain ⟨_, hw⟩ := Prod.mk.inj h
        subst hw
        refine ⟨rfl, fun _ _ => rfl, _, rfl, ?_⟩
        intro e he
        simp only [List.mem_cons, List.mem_singleton] at he
        rcases he with rfl | rfl | rfl | hf
        · rfl
        · rfl
        · rfl
        · simp at hf
      · obtain ⟨hr, _⟩ := Prod.mk.inj h
        have hr2 := Outcome.returned.inj hr
        rw [← hr2] at hcode
        simp at hcode

/-- C7, applied to `zlib:x64-windows` with a clean build and a lint reporting 2
errors: the call returns `POST_BUILD_CHECKS_FAILED`, the status database is the
one before, and no file write was added. -/
theorem build_package_failure_no_mutation_witness :
    (build_package (sample_env 0 2) zlib_source zlib_spec sample_paths zlib_port_dir
        world_both).1 =
      Outcome.returned
        { code := BuildResult.POST_BUILD_CHECKS_FAILED, unmet_dependencies := [] } ∧
    (build_package (sample_env 0 2) zlib_source zlib_spec sample_paths zlib_port_dir
        world_both).2.status_db = world_both.status_db ∧
    ∃ added : List Event,
      (build_package (sample_env 0 2) zlib_source zlib_spec sample_paths zlib_port_dir
          world_both).2.trace = world_both.trace ++ added ∧
      ∀ e ∈ added, e.is_write_contents = false :=
  have h := build_package_failure_no_mutation (sample_env 0 2) zlib_source zlib_spec
    sample_paths zlib_port_dir world_both
    (build_package (sample_env 0 2) zlib_source zlib_spec sample_paths zlib_port_dir
      world_both).2
    { code := BuildResult.POST_BUILD_CHECKS_FAILED, unmet_dependencies := [] }
    (by decide) (Or.inr rfl)
  ⟨by decide, h.1, h.2.2⟩

/-- C8 fails as stated: `zlib:x64-windows` has a filtered dependency with an empty
name that is not installed, `PackageSpec::from_name_and_triplet` fails for it,
and `build_package` hands no value back to its caller: `value_or_exit` ends the
process. -/
theorem build_package_invalid_dependency_counterexample :
    (∃ d ∈ filter_dependencies (sample_env 0 0) zlib_source_unnamed.depends zlib_spec.triplet,
        world_bzip2.status_db.find_installed d zlib_spec.triplet = none ∧
        ∃ e, PackageSpec.from_name_and_triplet d zlib_spec.triplet = Except.error e) ∧
    zlib_spec.name = zlib_source_unnamed.name ∧
    build_package (sample_env 0 0) zlib_source_unnamed zlib_spec sample_paths zlib_port_dir
        world_bzip2 = (Outcome.exited, world_bzip2) ∧
    ¬ ∃ r w', build_package (sample_env 0 0) zlib_source_unnamed zlib_spec sample_paths
        zlib_port_dir world_bzip2 = (Outcome.returned r, w') := by
  have hrun : build_package (sample_env 0 0) zlib_source_unnamed zlib_spec sample_paths
      zlib_port_dir world_bzip2 = (Outcome.exited, world_bzip2) := by decide
  refine ⟨⟨"", by decide, by decide, ParseError.Malformed, rfl⟩, rfl, hrun, ?_⟩
  rintro ⟨r, w', h⟩
  rw [hrun] at h
  simp at h

/-- C8, amended: when a filtered dependency name that is not installed cannot form
a valid `PackageSpec` (`PackageSpec::from_name_and_triplet` fails for it),
`build_package` returns nothing to its caller: the process is terminated
(`value_or_exit`, or the earlier `check_exit`), and this happens before the
external build process is run: the world, trace included, is untouched. -/
theorem build_package_invalid_dependency_exits (env : Env) (sp : SourceParagraph)
    (spec : PackageSpec) (paths : VcpkgPaths) (port_dir : Path) (w : World)
    (hbad : ∃ d ∈ filter_dependencies env sp.depends spec.triplet,
      w.status_db.find_installed d spec.triplet = none ∧
      ∃ e, PackageSpec.from_name_and_triplet d spec.triplet = Except.error e) :
    build_package env sp spec paths port_dir w = (Outcome.exited, w) ∧
    (¬ ∃ r w', build_package env sp spec paths port_dir w = (Outcome.returned r, w')) ∧
    (build_package env sp spec paths port_dir w).2.trace = w.trace := by
  have hrun : build_package env sp spec paths port_dir w = (Outcome.exited, w) := by
    by_cases hname : spec.name = sp.name
    · obtain ⟨d, hd, hnone, herr⟩ := hbad
      exact build_package_of_unnamed env sp spec paths port_dir w hname
        ⟨d, hd, Option.isNone_iff_eq_none.mpr hnone,
          (from_name_and_triplet_error_iff d spec.triplet).mp herr⟩
    · exact build_package_of_name_ne env sp spec paths port_dir w hname
  refine ⟨hrun, ?_, by rw [hrun]⟩
  rintro ⟨r, w', h⟩
  rw [hrun] at h
  simp at h

/-- C8 (amended), applied to `zlib:x64-windows` with an unnamed dependency. -/
theorem build_package_invalid_dependency_exits_witness :
    (∃ d ∈ filter_dependencies (sample_env 0 0) zlib_source_unnamed.depends zlib_spec.triplet,
        world_bzip2.status_db.find_installed d zlib_spec.triplet = none ∧
        ∃ e, PackageSpec.from_name_and_triplet d zlib_spec.triplet = Except.error e) ∧
    build_package (sample_env 0 0) zlib_source_unnamed zlib_spec sample_paths zlib_port_dir
        world_bzip2 = (Outcome.exited, world_bzip2) :=
  have hbad : ∃ d ∈ filter_dependencies (sample_env 0 0) zlib_source_unnamed.depends
      zlib_spec.triplet,
      world_bzip2.status_db.find_installed d zlib_spec.triplet = none ∧
      ∃ e, PackageSpec.from_name_and_triplet d zlib_spec.triplet = Except.error e :=
    ⟨"", by decide, by decide, ParseError.Malformed, rfl⟩
  ⟨hbad,
    (build_package_invalid_dependency_exits (sample_env 0 0) zlib_source_unnamed zlib_spec
      sample_paths zlib_port_dir world_bzip2 hbad).1⟩

/-- C9: `build_package` returns a result (of any code) only if
`spec.name() == source_paragraph.name`; when the names differ the call ends
fatally at the first step with the world untouched: no dependency check, no
external build, no lint and no file write has happened. -/
theorem build_package_name_check (env : Env) (sp : SourceParagraph) (spec : PackageSpec)
    (paths : VcpkgPaths) (port_dir : Path) (w : World) :
    (∀ r w', build_package env sp spec paths port_dir w = (Outcome.returned r, w') →
      spec.name = sp.name) ∧
    (spec.name ≠ sp.name →
      build_package env sp spec paths port_dir w = (Outcome.exited, w) ∧
      (build_package env sp spec paths port_dir w).2.trace = w.trace ∧
      ∀ status_db' : StatusParagraphs,
        build_package env sp spec paths port_dir { w with status_db := status_db' } =
          (Outcome.exited, { w with status_db := status_db' })) := by
  constructor
  · intro r w' h
    exact (build_package_returned_cases env sp spec paths port_dir w w' r h).1
  · intro hne
    refine ⟨build_package_of_name_ne env sp spec paths port_dir w hne, ?_, ?_⟩
    · rw [build_package_of_name_ne env sp spec paths port_dir w hne]
    · intro status_db'
      exact build_package_of_name_ne env sp spec paths port_dir _ hne

/-- C9, applied to the spec `zlib:x64-windows` with a source paragraph named
`zlib2`: the call ends fatally and the world is untouched. -/
theorem build_package_name_check_witness :
    zlib_spec.name ≠ zlib2_source_libpng.name ∧
    build_package (sample_env 0 0) zlib2_source_libpng zlib_spec sample_paths zlib_port_dir
        world_both = (Outcome.exited, world_both) :=
  ⟨by decide,
    ((build_package_name_check (sample_env 0 0) zlib2_source_libpng zlib_spec sample_paths
      zlib_port_dir world_both).2 (by decide)).1⟩

/-- C10: for every dependency list of the source paragraph (also one naming the
same dependency more than once) and every status database, the list of missing
specs carried by a `CASCADED_DUE_TO_MISSING_DEPENDENCIES` result contains no
`PackageSpec` twice. -/
theorem cascade_missing_specs_nodup (env : Env) (sp : SourceParagraph)
    (spec : PackageSpec) (paths : VcpkgPaths) (port_dir : Path) (w w' : World)
    (r : ExtendedBuildResult)
    (h : build_package env sp spec paths port_dir w = (Outcome.returned r, w'))
    (_hcode : r.code = BuildResult.CASCADED_DUE_TO_MISSING_DEPENDENCIES) :
    r.unmet_dependencies.Nodup := by
  obtain ⟨_, _, hcases⟩ := build_package_returned_cases env sp spec paths port_dir w w' r h
  rcases hcases with ⟨_, hr, _⟩ | ⟨_, hr, _⟩
  · rw [hr]
    apply List.Nodup.map
    · intro a b hab
      exact congrArg PackageSpec.name hab
    · exact List.Nodup.filter _ (filter_dependencies_nodup env sp.depends spec.triplet)
  · rw [hr]
    exact List.nodup_nil

/-- C10, applied to a source paragraph that names `libpng` twice while `libpng`
is not installed: the cascade result carries `libpng:x64-windows` once. -/
theorem cascade_missing_specs_nodup_witness :
    build_package (sample_env 0 0) zlib_source_repeated zlib_spec sample_paths zlib_port_dir
        world_bzip2 =
      (Outcome.returned
        { code := BuildResult.CASCADED_DUE_TO_MISSING_DEPENDENCIES
          unmet_dependencies := [{ name := "libpng", triplet := x64_windows }] },
        world_bzip2) ∧
    ([{ name := "libpng", triplet := x64_windows }] : List PackageSpec).Nodup :=
  ⟨by decide,
    cascade_missing_specs_nodup (sample_env 0 0) zlib_source_repeated zlib_spec
      sample_paths zlib_port_dir world_bzip2 world_bzip2
      { code := BuildResult.CASCADED_DUE_TO_MISSING_DEPENDENCIES
        unmet_dependencies := [{ name := "libpng", triplet := x64_windows }] }
      (by decide) rfl⟩

/-! ## Containers: lemmas -/

namespace Util

/-- What a map holds under `k` after `(*output)[key].push_back(&element)`. -/
theorem find_subscript_push_back {K V : Type} [DecidableEq K] (m : Map K V) (key : K)
    (element : V) (k : K) :
    (Map.subscript_push_back m key element).find k =
      if key = k then some ((m.find k).getD [] ++ [element]) else m.find k := by
  induction m with
  | nil =>
    by_cases h : key = k
    · simp [Map.subscript_push_back, Map.find, h]
    · simp [Map.subscript_push_back, Map.find, h]
  | cons entry rest ih =>
    obtain ⟨k0, vs⟩ := entry
    unfold Map.subscript_push_back
    by_cases h0 : k0 = key
    · subst h0
      by_cases h : k0 = k
      · simp [Map.find, h]
      · simp [Map.find, h]
    · rw [if_neg h0]
      by_cases h1 : k0 = k
      · subst h1
        have hne : ¬ key = k0 := fun h => h0 h.symm
        simp [Map.find, hne]
      · simp only [Map.find, if_neg h1]
        exact ih

/-- One `push_back` adds one element to the map. -/
theorem total_size_subscript_push_back {K V : Type} [DecidableEq K] (m : Map K V) (key : K)
    (element : V) :
    (Map.subscript_push_back m key element).total_size = m.total_size + 1 := by
  induction m with
  | nil => simp [Map.subscript_push_back, Map.total_size]
  | cons entry rest ih =>
    obtain ⟨k0, vs⟩ := entry
    unfold Map.subscript_push_back
    by_cases h0 : k0 = key
    · rw [if_pos h0]
      simp [Map.total_size]
      omega
    · rw [if_neg h0]
      simp only [Map.total_size, List.map_cons, List.sum_cons] at ih ⊢
      omega

/-- What a map holds under `k` after `group_by`. -/
theorem find_group_by {K V : Type} [DecidableEq K] (f : V → K) (k : K) :
    ∀ (cont : List V) (output : Map K V),
      (group_by cont output f).find k =
        if ∃ e ∈ cont, f e = k then
          some ((output.find k).getD [] ++ cont.filter (fun e => decide (f e = k)))
        else output.find k := by
  intro cont
  induction cont with
  | nil => intro output; simp [group_by]
  | cons e rest ih =>
    intro output
    unfold group_by
    simp only []
    rw [ih, find_subscript_push_back]
    by_cases he : f e = k
    · have hex : ∃ x ∈ e :: rest, f x = k := ⟨e, List.mem_cons_self _ _, he⟩
      rw [if_pos hex, if_pos he]
      by_cases hr : ∃ x ∈ rest, f x = k
      · rw [if_pos hr]
        simp [List.filter_cons, he]
      · rw [if_neg hr]
        have hnil : rest.filter (fun e => decide (f e = k)) = [] := by
          rw [List.filter_eq_nil_iff]
          intro x hx hfx
          exact hr ⟨x, hx, of_decide_eq_true hfx⟩
        simp [List.filter_cons, he, hnil]
    · rw [if_neg he]
      by_cases hr : ∃ x ∈ rest, f x = k
      · have hex : ∃ x ∈ e :: rest, f x = k := by
          obtain ⟨x, hx, hfx⟩ := hr
          exact ⟨x, List.mem_cons_of_mem _ hx, hfx⟩
        rw [if_pos hr, if_pos hex]
        simp [List.filter_cons, he]
      · have hex : ¬ ∃ x ∈ e :: rest, f x = k := by
          rintro ⟨x, hx, hfx⟩
          rcases List.mem_cons.mp hx with rfl | hx
          · exact he hfx
          · exact hr ⟨x, hx, hfx⟩
        rw [if_neg hr, if_neg hex]

/-- After `group_by` the map holds as many more elements as `cont` has. -/
theorem total_size_group_by {K V : Type} [DecidableEq K] (f : V → K) :
    ∀ (cont : List V) (output : Map K V),
      (group_by cont output f).total_size = output.total_size + cont.length := by
  intro cont
  induction cont with
  | nil => intro output; simp [group_by]
  | cons e rest ih =>
    intro output
    unfold group_by
    simp only []
    rw [ih, total_size_subscript_push_back, List.length_cons]
    omega

/-- The position found by `std::find_if` is inside the container or its end. -/
theorem std_find_if_le {α : Type} (pred : α → Bool) :
    ∀ cont : List α, std_find_if pred cont ≤ cont.length := by
  intro cont
  induction cont with
  | nil => simp [std_find_if]
  | cons x xs ih =>
    unfold std_find_if
    by_cases hx : pred x = true
    · simp [hx]
    · simp [hx]
      exact ih

/-- The elements before the position found by `std::find_if` all fail `pred`, the
element at it (if any) satisfies it: the elements failing `pred` are those
before the position followed by the ones failing `pred` after it. -/
theorem filter_eq_take_std_find_if {α : Type} (pred : α → Bool) :
    ∀ cont : List α,
      cont.filter (fun x => !pred x) =
        cont.take (std_find_if pred cont) ++
          (cont.drop (std_find_if pred cont + 1)).filter (fun x => !pred x) := by
  intro cont
  induction cont with
  | nil => simp [std_find_if]
  | cons x xs ih =>
    unfold std_find_if
    cases hx : pred x with
    | true => simp [hx]
    | false =>
      simp only [Bool.false_eq_true, if_false, List.take_succ_cons, List.drop_succ_cons]
      rw [List.filter_cons]
      simp only [hx, Bool.not_false, if_true, List.cons_append]
      rw [← ih]

/-- The shifting loop of `std::remove_if`, given enough steps to reach the end:
the part of the result before the returned position is the part before `first`
followed by the unread elements that fail `pred`, in order. -/
theorem std_remove_if_loop_take {α : Type} (pred : α → Bool) :
    ∀ (steps : Nat) (cont : List α) (first i : Nat),
      first ≤ i → i < cont.length → cont.length ≤ steps + (i + 1) →
      (std_remove_if_loop pred steps cont first i).1.take
          (std_remove_if_loop pred steps cont first i).2 =
        cont.take first ++ (cont.drop (i + 1)).filter (fun x => !pred x) := by
  intro steps
  induction steps with
  | zero =>
    intro cont first i _ hi hsteps
    have hdrop : cont.drop (i + 1) = [] := List.drop_eq_nil_of_le (by omega)
    simp [std_remove_if_loop, hdrop]
  | succ n ih =>
    intro cont first i hfi hi hsteps
    unfold std_remove_if_loop
    cases hget : cont[i + 1]? with
    | none =>
      have hlen : cont.length ≤ i + 1 := List.getElem?_eq_none_iff.mp hget
      have hdrop : cont.drop (i + 1) = [] := List.drop_eq_nil_of_le hlen
      simp [hdrop]
    | some x =>
      obtain ⟨hlt, hx⟩ := List.getElem?_eq_some.mp hget
      have hdrop : cont.drop (i + 1) = x :: cont.drop (i + 1 + 1) := by
        rw [List.drop_eq_getElem_cons hlt, hx]
      cases hp : pred x with
      | true =>
        simp only [hp, Bool.not_true, Bool.false_eq_true, if_false]
        rw [ih cont first (i + 1) (by omega) hlt (by omega), hdrop, List.filter_cons]
        simp [hp]
      | false =>
        simp only [hp, Bool.not_false, if_true]
        have hlen : (cont.set first x).length = cont.length := List.length_set _ _ _
        have hfirst : first < (cont.set first x).length := by rw [hlen]; omega
        rw [ih (cont.set first x) (first + 1) (i + 1) (by omega) (by rw [hlen]; exact hlt)
          (by rw [hlen]; omega)]
        have htake : (cont.set first x).take (first + 1) = cont.take first ++ [x] := by
          have hfl : first < cont.length := by omega
          have hlt2 : (cont.take first).length = first :=
            List.length_take_of_le (Nat.le_of_lt hfl)
          rw [List.set_eq_take_append_cons_drop, if_pos hfl, List.take_append_eq_append_take,
            hlt2, List.take_of_length_le (by omega)]
          simp
        have hdrop2 : (cont.set first x).drop (i + 1 + 1) = cont.drop (i + 1 + 1) :=
          List.drop_set_of_lt x cont (by omega)
        rw [htake, hdrop2, hdrop, List.filter_cons]
        simp [hp]

/-- The algorithm `std::remove_if` followed by `erase` keeps the elements failing
`pred`, in their order. -/
theorem erase_remove_if_eq_filter {α : Type} (cont : List α) (pred : α → Bool) :
    erase_remove_if cont pred = cont.filter (fun x => !pred x) := by
  unfold erase_remove_if erase_to_end std_remove_if
  simp only []
  have hle := std_find_if_le pred cont
  by_cases hk : std_find_if pred cont = cont.length
  · rw [if_neg (not_not.mpr hk)]
    rw [filter_eq_take_std_find_if pred cont, hk,
      List.drop_eq_nil_of_le (Nat.le_succ cont.length)]
    simp
  · rw [if_pos hk]
    rw [std_remove_if_loop_take pred cont.length cont _ _ (Nat.le_refl _) (by omega) (by omega)]
    exact (filter_eq_take_std_find_if pred cont).symm

/-- First inner loop of `std::partition`, given enough steps: it stops at a
position `f` between `first` and `last`, everything before `f` satisfies `pred`,
and unless `f` is `last` the element at `f` fails `pred`. -/
theorem std_partition_skip_front_spec {α : Type} (pred : α → Bool) (cont : List α) :
    ∀ (steps first last : Nat),
      first ≤ last → last ≤ cont.length → last - first ≤ steps →
      (∀ x ∈ cont.take first, pred x = true) →
      first ≤ std_partition_skip_front pred cont steps first last ∧
      std_partition_skip_front pred cont steps first last ≤ last ∧
      (∀ x ∈ cont.take (std_partition_skip_front pred cont steps first last),
        pred x = true) ∧
      (std_partition_skip_front pred cont steps first last ≠ last →
        ∃ x, cont[std_partition_skip_front pred cont steps first last]? = some x ∧
          pred x = false) := by
  intro steps
  induction steps with
  | zero =>
    intro first last hfl _ hsteps hpre
    have hfl2 : first = last := by omega
    simp only [std_partition_skip_front]
    exact ⟨Nat.le_refl _, hfl, hpre, fun h => absurd hfl2 h⟩
  | succ n ih =>
    intro first last hfl hlast hsteps hpre
    unfold std_partition_skip_front
    by_cases heq : first = last
    · rw [if_pos heq]
      exact ⟨Nat.le_refl _, hfl, hpre, fun h => absurd heq h⟩
    · rw [if_neg heq]
      have hlt : first < cont.length := by omega
      rw [List.getElem?_eq_getElem hlt]
      simp only []
      cases hp : pred cont[first] with
      | false =>
        simp only [Bool.not_false, if_true]
        exact ⟨Nat.le_refl _, hfl, hpre, fun _ =>
          ⟨cont[first], List.getElem?_eq_getElem hlt, hp⟩⟩
      | true =>
        simp only [Bool.not_true, Bool.false_eq_true, if_false]
        have hpre2 : ∀ x ∈ cont.take (first + 1), pred x = true := by
          intro x hx
          rw [List.take_succ, List.getElem?_eq_getElem hlt] at hx
          rcases List.mem_append.mp hx with h1 | h1
          · exact hpre x h1
          · simp only [Option.toList, List.mem_singleton] at h1
            rw [h1]; exact hp
        obtain ⟨h1, h2, h3, h4⟩ := ih (first + 1) last (by omega) hlast (by omega) hpre2
        exact ⟨by omega, h2, h3, h4⟩

/-- Second inner loop of `std::partition`, given enough steps and an element
failing `pred` at `first`: it stops at a position `b` with `first ≤ b < last`;
when `b` is `first` everything from `b` on fails `pred`, otherwise the element
at `b` satisfies `pred` and everything after it fails `pred`. -/
theorem std_partition_skip_back_spec {α : Type} (pred : α → Bool) (cont : List α) :
    ∀ (steps first last : Nat),
      first < last → last ≤ cont.length → last - first ≤ steps →
      (∀ x ∈ cont.drop last, pred x = false) →
      (∃ x, cont[first]? = some x ∧ pred x = false) →
      first ≤ std_partition_skip_back pred cont steps first last ∧
      std_partition_skip_back pred cont steps first last < last ∧
      (std_partition_skip_back pred cont steps first last = first →
        ∀ x ∈ cont.drop first, pred x = false) ∧
      (std_partition_skip_back pred cont steps first last ≠ first →
        (∃ y, cont[std_partition_skip_back pred cont steps first last]? = some y ∧
          pred y = true) ∧
        ∀ x ∈ cont.drop (std_partition_skip_back pred cont steps first last + 1),
          pred x = false) := by
  intro steps
  induction steps with
  | zero =>
    intro first last hfl _ hsteps _ _
    omega
  | succ n ih =>
    intro first last hfl hlast hsteps hpost hfirst
    unfold std_partition_skip_back
    have hlast1 : last - 1 + 1 = last := by omega
    have hlt : last - 1 < cont.length := by omega
    have hdrop : cont.drop (last - 1) = cont[last - 1] :: cont.drop last := by
      rw [List.drop_eq_getElem_cons hlt, hlast1]
    by_cases heq : first = last - 1
    · rw [if_pos heq]
      refine ⟨by omega, by omega, fun _ => ?_, fun h => absurd heq.symm h⟩
      obtain ⟨x, hx, hpx⟩ := hfirst
      obtain ⟨_, hx2⟩ := List.getElem?_eq_some.mp hx
      intro y hy
      rw [heq, hdrop] at hy
      rcases List.mem_cons.mp hy with h1 | h1
      · have hxy : cont[last - 1] = x := by
          rw [← hx2]
          congr 1
        rw [h1, hxy]; exact hpx
      · exact hpost y h1
    · rw [if_neg heq]
      rw [List.getElem?_eq_getElem hlt]
      simp only []
      cases hp : pred cont[last - 1] with
      | false =>
        simp only [Bool.not_false, if_true]
        have hpost2 : ∀ x ∈ cont.drop (last - 1), pred x = false := by
          intro y hy
          rw [hdrop] at hy
          rcases List.mem_cons.mp hy with h1 | h1
          · rw [h1]; exact hp
          · exact hpost y h1
        obtain ⟨h1, h2, h3, h4⟩ :=
          ih first (last - 1) (by omega) (by omega) (by omega) hpost2 hfirst
        exact ⟨h1, by omega, h3, h4⟩
      | true =>
        simp only [Bool.not_true, Bool.false_eq_true, if_false]
        refine ⟨by omega, by omega, fun h => absurd h.symm heq, fun _ => ?_⟩
        refine ⟨⟨cont[last - 1], List.getElem?_eq_getElem hlt, hp⟩, ?_⟩
        rw [hlast1]
        exact hpost

/-- An element at a position splits the container around it. -/
theorem split_at_position {α : Type} :
    ∀ (cont : List α) (j : Nat) (b : α), cont[j]? = some b →
      ∃ M1 M2, cont = M1 ++ b :: M2 ∧ M1.length = j := by
  intro cont j b h
  obtain ⟨hlt, hb⟩ := List.getElem?_eq_some.mp h
  refine ⟨cont.take j, cont.drop (j + 1), ?_, List.length_take_of_le (Nat.le_of_lt hlt)⟩
  rw [← hb, ← List.drop_eq_getElem_cons hlt, List.take_append_drop]

/-- The call `iter_swap` on two positions `i < j` holding `a` and `b`: the
container splits around the two positions, and the swap exchanges `a` and `b`. -/
theorem iter_swap_spec {α : Type} :
    ∀ (cont : List α) (i j : Nat) (a b : α),
      i < j → cont[i]? = some a → cont[j]? = some b →
      ∃ L1 M1 M2, cont = L1 ++ a :: (M1 ++ b :: M2) ∧ L1.length = i ∧
        L1.length + 1 + M1.length = j ∧
        iter_swap cont i j = L1 ++ b :: (M1 ++ a :: M2) := by
  intro cont
  induction cont with
  | nil =>
    intro i j a b _ hi _
    simp at hi
  | cons x xs ih =>
    intro i j a b hij hi hj
    cases j with
    | zero => omega
    | succ j' =>
      cases i with
      | zero =>
        have hxa : x = a := by simpa using hi
        have hj2 : xs[j']? = some b := by simpa using hj
        obtain ⟨M1, M2, hxs, hlen⟩ := split_at_position xs j' b hj2
        refine ⟨[], M1, M2, ?_, rfl, by simp [hlen]; omega, ?_⟩
        · rw [hxs, hxa]; rfl
        · unfold iter_swap
          rw [hi, hj]
          simp only [List.set_cons_zero, List.set_cons_succ, List.nil_append]
          rw [hxs, ← hlen, List.set_append_right _ _ (Nat.le_refl _)]
          simp [hxa]
      | succ i' =>
        have hi2 : xs[i']? = some a := by simpa using hi
        have hj2 : xs[j']? = some b := by simpa using hj
        obtain ⟨L1, M1, M2, hxs, hl1, hl2, hswap⟩ := ih i' j' a b (by omega) hi2 hj2
        refine ⟨x :: L1, M1, M2, ?_, by simp [hl1], by simp; omega, ?_⟩
        · rw [hxs]; rfl
        · have hunf : iter_swap (x :: xs) (i' + 1) (j' + 1) = x :: iter_swap xs i' j' := by
            unfold iter_swap
            rw [hi, hj, hi2, hj2]
            simp
          rw [hunf, hswap]
          rfl

/-- Exchanging two elements of a sequence gives a permutation of it. -/
theorem perm_exchange {α : Type} (L1 M1 M2 : List α) (a b : α) :
    (L1 ++ b :: (M1 ++ a :: M2)).Perm (L1 ++ a :: (M1 ++ b :: M2)) := by
  apply List.Perm.append_left
  have h1 : (b :: (M1 ++ a :: M2)).Perm (b :: a :: (M1 ++ M2)) :=
    List.Perm.cons b List.perm_middle
  have h2 : (a :: (M1 ++ b :: M2)).Perm (a :: b :: (M1 ++ M2)) :=
    List.Perm.cons a List.perm_middle
  exact h1.trans ((List.Perm.swap a b (M1 ++ M2)).trans h2.symm)

/-- One round of the outer loop of `std::partition`. -/
theorem std_partition_loop_succ {α : Type} (pred : α → Bool) (n : Nat) (cont : List α)
    (first last : Nat) :
    std_partition_loop pred (n + 1) cont first last =
      if std_partition_skip_front pred cont cont.length first last = last then
        (cont, std_partition_skip_front pred cont cont.length first last)
      else if std_partition_skip_front pred cont cont.length first last =
          std_partition_skip_back pred cont cont.length
            (std_partition_skip_front pred cont cont.length first last) last then
        (cont, std_partition_skip_front pred cont cont.length first last)
      else
        std_partition_loop pred n
          (iter_swap cont (std_partition_skip_front pred cont cont.length first last)
            (std_partition_skip_back pred cont cont.length
              (std_partition_skip_front pred cont cont.length first last) last))
          (std_partition_skip_front pred cont cont.length first last + 1)
          (std_partition_skip_back pred cont cont.length
            (std_partition_skip_front pred cont cont.length first last) last) := rfl

/-- The outer loop of `std::partition`, given enough steps: started with
everything before `first` satisfying `pred` and everything from `last` on failing
it, it ends with a permutation of the container in which everything before the
returned position satisfies `pred` and everything from it on fails `pred`. -/
theorem std_partition_loop_spec {α : Type} (pred : α → Bool) :
    ∀ (steps : Nat) (cont : List α) (first last : Nat),
      first ≤ last → last ≤ cont.length → last - first ≤ steps →
      (∀ x ∈ cont.take first, pred x = true) →
      (∀ x ∈ cont.drop last, pred x = false) →
      (std_partition_loop pred steps cont first last).1.Perm cont ∧
      (∀ x ∈ (std_partition_loop pred steps cont first last).1.take
          (std_partition_loop pred steps cont first last).2, pred x = true) ∧
      (∀ x ∈ (std_partition_loop pred steps cont first last).1.drop
          (std_partition_loop pred steps cont first last).2, pred x = false) := by
  intro steps
  induction steps with
  | zero =>
    intro cont first last hfl _ hsteps hpre hpost
    have heq : first = last := by omega
    simp only [std_partition_loop]
    refine ⟨List.Perm.refl _, hpre, ?_⟩
    rw [heq]; exact hpost
  | succ n ih =>
    intro cont first last hfl hlast hsteps hpre hpost
    rw [std_partition_loop_succ]
    obtain ⟨hf1, hf2, hf3, hf4⟩ :=
      std_partition_skip_front_spec pred cont cont.length first last hfl hlast (by omega) hpre
    generalize std_partition_skip_front pred cont cont.length first last = f at hf1 hf2 hf3 hf4 ⊢
    by_cases hfl2 : f = last
    · rw [if_pos hfl2]
      refine ⟨List.Perm.refl _, hf3, ?_⟩
      rw [hfl2]; exact hpost
    · rw [if_neg hfl2]
      obtain ⟨x, hx, hpx⟩ := hf4 hfl2
      obtain ⟨hb1, hb2, hb3, hb4⟩ :=
        std_partition_skip_back_spec pred cont cont.length f last (by omega) hlast (by omega)
          hpost ⟨x, hx, hpx⟩
      generalize std_partition_skip_back pred cont cont.length f last = b at hb1 hb2 hb3 hb4 ⊢
      by_cases hfb : f = b
      · rw [if_pos hfb]
        exact ⟨List.Perm.refl _, hf3, hb3 hfb.symm⟩
      · rw [if_neg hfb]
        obtain ⟨⟨y, hy, hpy⟩, hafter⟩ := hb4 (fun h => hfb h.symm)
        obtain ⟨L1, M1, M2, hcont, hl1, hl2, hswap⟩ :=
          iter_swap_spec cont f b x y (by omega) hx hy
        rw [hswap]
        have hperm : (L1 ++ y :: (M1 ++ x :: M2)).Perm cont := by
          rw [hcont]; exact perm_exchange L1 M1 M2 x y
        have hL1 : ∀ z ∈ L1, pred z = true := by
          intro z hz
          apply hf3 z
          rw [hcont, ← hl1, List.take_left']
          · exact hz
          · rfl
        have hM2 : ∀ z ∈ M2, pred z = false := by
          intro z hz
          apply hafter z
          have hdrop : cont.drop (b + 1) = M2 := by
            rw [hcont]
            have hlen : (L1 ++ x :: M1 ++ [y]).length = b + 1 := by
              simp; omega
            have hre : L1 ++ x :: (M1 ++ y :: M2) = (L1 ++ x :: M1 ++ [y]) ++ M2 := by simp
            rw [hre, ← hlen, List.drop_left']
            rfl
          rw [hdrop]; exact hz
        have htake : ∀ z ∈ (L1 ++ y :: (M1 ++ x :: M2)).take (f + 1), pred z = true := by
          intro z hz
          have hre : L1 ++ y :: (M1 ++ x :: M2) = (L1 ++ [y]) ++ (M1 ++ x :: M2) := by simp
          have hlen : (L1 ++ [y]).length = f + 1 := by simp [hl1]
          rw [hre, ← hlen, List.take_left' rfl] at hz
          rcases List.mem_append.mp hz with h | h
          · exact hL1 z h
          · rw [List.mem_singleton.mp h]; exact hpy
        have hdropb : ∀ z ∈ (L1 ++ y :: (M1 ++ x :: M2)).drop b, pred z = false := by
          intro z hz
          have hre : L1 ++ y :: (M1 ++ x :: M2) = (L1 ++ y :: M1) ++ (x :: M2) := by simp
          have hlen : (L1 ++ y :: M1).length = b := by simp; omega
          rw [hre, ← hlen, List.drop_left' rfl] at hz
          rcases List.mem_cons.mp hz with h | h
          · rw [h]; exact hpx
          · exact hM2 z h
        have hlenb : b ≤ (L1 ++ y :: (M1 ++ x :: M2)).length := by
          rw [List.Perm.length_eq hperm]; omega
        obtain ⟨h1, h2, h3⟩ :=
          ih (L1 ++ y :: (M1 ++ x :: M2)) (f + 1) b (by omega) hlenb (by omega) htake hdropb
        exact ⟨h1.trans hperm, h2, h3⟩

/-- The algorithm `std::partition`: a permutation of the container in which
everything before the returned position satisfies `pred` and everything from it
on fails `pred`. -/
theorem std_partition_spec {α : Type} (pred : α → Bool) (cont : List α) :
    (std_partition pred cont).1.Perm cont ∧
    (∀ x ∈ (std_partition pred cont).1.take (std_partition pred cont).2, pred x = true) ∧
    (∀ x ∈ (std_partition pred cont).1.drop (std_partition pred cont).2, pred x = false) := by
  unfold std_partition
  apply std_partition_loop_spec pred cont.length cont 0 cont.length (Nat.zero_le _)
    (Nat.le_refl _) (by omega)
  · intro x hx; simp at hx
  · intro x hx; simp at hx

/-- A sequence cut so that the front satisfies `pred` and the back fails it: the
front is a permutation of the order-preserving filter of any permutation of the
whole. -/
theorem take_perm_filter_of_partitioned {α : Type} (pred : α → Bool) (cont result : List α)
    (k : Nat) (hperm : result.Perm cont)
    (hfront : ∀ x ∈ result.take k, pred x = true)
    (hback : ∀ x ∈ result.drop k, pred x = false) :
    (result.take k).Perm (cont.filter pred) := by
  have h1 : (result.filter pred).Perm (cont.filter pred) := hperm.filter pred
  have h2 : result.filter pred = result.take k := by
    conv_lhs => rw [← List.take_append_drop k result]
    rw [List.filter_append, List.filter_eq_self.mpr hfront]
    have : (result.drop k).filter pred = [] := by
      rw [List.filter_eq_nil_iff]
      intro x hx
      rw [hback x hx]
      simp
    rw [this, List.append_nil]
  rw [← h2]
  exact h1

/-- The function `unstable_keep_if` leaves a permutation of the elements that
satisfy `pred`. -/
theorem unstable_keep_if_perm_filter {α : Type} (cont : List α) (pred : α → Bool) :
    (unstable_keep_if cont pred).Perm (cont.filter pred) := by
  obtain ⟨h1, h2, h3⟩ := std_partition_spec pred cont
  exact take_perm_filter_of_partitioned pred cont _ _ h1 h2 h3

end Util

/-! ## Claims on the containers -/

/-- C11: for every container and predicate, `Util::erase_remove_if(cont, pred)`
leaves exactly the elements that do not satisfy `pred`, in their original
relative order; `Util::unstable_keep_if(cont, pred)` leaves a permutation of the
order-preserving filter by `pred` (exactly the elements satisfying `pred`, with
their multiplicities); so `unstable_keep_if(cont, pred)` and
`erase_remove_if(cont, not pred)` leave the same multiset of elements. -/
theorem erase_remove_if_and_unstable_keep_if {α : Type} (cont : List α) (pred : α → Bool) :
    Util.erase_remove_if cont pred = cont.filter (fun x => !pred x) ∧
    (Util.unstable_keep_if cont pred).Perm (cont.filter pred) ∧
    (∀ x, x ∈ Util.unstable_keep_if cont pred ↔ x ∈ cont ∧ pred x = true) ∧
    (Util.unstable_keep_if cont pred).Perm (Util.erase_remove_if cont (fun x => !pred x)) ∧
    (↑(Util.unstable_keep_if cont pred) : Multiset α) =
      ↑(Util.erase_remove_if cont (fun x => !pred x)) := by
  have hkeep := Util.unstable_keep_if_perm_filter cont pred
  have hremove : Util.erase_remove_if cont (fun x => !pred x) = cont.filter pred := by
    rw [Util.erase_remove_if_eq_filter]
    congr 1
    funext x
    simp
  refine ⟨Util.erase_remove_if_eq_filter cont pred, hkeep, ?_, ?_, ?_⟩
  · intro x
    rw [hkeep.mem_iff, List.mem_filter]
  · rw [hremove]; exact hkeep
  · rw [hremove]; exact Multiset.coe_eq_coe.mpr hkeep

/-- The order left by `unstable_keep_if` need not be the original one: keeping the
even numbers of `[1, 2, 4]` leaves `[4, 2]`, while `erase_remove_if` with the
negated predicate leaves `[2, 4]`. -/
theorem unstable_keep_if_reorders :
    Util.unstable_keep_if [1, 2, 4] (fun n => n % 2 == 0) = [4, 2] ∧
    Util.erase_remove_if [1, 2, 4] (fun n => !(n % 2 == 0)) = [2, 4] := by
  constructor <;> decide

/-- C12: for every container `cont`, key function `f` and initial output map `m`,
after `Util::group_by(cont, &m, f)` the sequence stored under each key `k` is the
sequence `m` held under `k` before the call (empty if `k` was absent) followed by
the elements `e` of `cont` with `f(e) == k` in their order of appearance; a key
that is the image of an element has an entry afterwards; keys that are not the
image of any element keep what they had; and the map holds `cont.size()` more
elements than before. -/
theorem group_by_appends_in_order {K V : Type} [DecidableEq K] (cont : List V)
    (m : Util.Map K V) (f : V → K) :
    (∀ k, (Util.Map.find (Util.group_by cont m f) k).getD [] =
      (Util.Map.find m k).getD [] ++ cont.filter (fun e => decide (f e = k))) ∧
    (∀ k, (∃ e ∈ cont, f e = k) →
      Util.Map.find (Util.group_by cont m f) k =
        some ((Util.Map.find m k).getD [] ++ cont.filter (fun e => decide (f e = k)))) ∧
    (∀ k, (∀ e ∈ cont, f e ≠ k) →
      Util.Map.find (Util.group_by cont m f) k = Util.Map.find m k) ∧
    Util.Map.total_size (Util.group_by cont m f) = Util.Map.total_size m + cont.length := by
  refine ⟨?_, ?_, ?_, Util.total_size_group_by f cont m⟩
  · intro k
    rw [Util.find_group_by]
    by_cases hex : ∃ e ∈ cont, f e = k
    · rw [if_pos hex]; rfl
    · rw [if_neg hex]
      have hnil : cont.filter (fun e => decide (f e = k)) = [] := by
        rw [List.filter_eq_nil_iff]
        intro x hx hfx
        exact hex ⟨x, hx, of_decide_eq_true hfx⟩
      rw [hnil, List.append_nil]
  · intro k hex
    rw [Util.find_group_by, if_pos hex]
  · intro k hne
    have hex : ¬ ∃ e ∈ cont, f e = k := by
      rintro ⟨e, he, hfe⟩
      exact hne e he hfe
    rw [Util.find_group_by, if_neg hex]

/-- C12, applied to grouping `1 .. 7` by remainder modulo 3 into a map that holds
`[10]` under `0` and `[55]` under `5`: `3` and `6` follow `10` under key `0`, key
`1` gets a new entry, key `5` keeps its sequence. -/
theorem group_by_appends_in_order_witness :
    Util.group_by [1, 2, 3, 4, 5, 6, 7] [(0, [10]), (5, [55])] (fun n => n % 3) =
      [(0, [10, 3, 6]), (5, [55]), (1, [1, 4, 7]), (2, [2, 5])] ∧
    Util.Map.find
        (Util.group_by [1, 2, 3, 4, 5, 6, 7] [(0, [10]), (5, [55])] (fun n => n % 3)) 0 =
      some [10, 3, 6] ∧
    Util.Map.find
        (Util.group_by [1, 2, 3, 4, 5, 6, 7] [(0, [10]), (5, [55])] (fun n => n % 3)) 5 =
      some [55] :=
  have h := group_by_appends_in_order [1, 2, 3, 4, 5, 6, 7] [(0, [10]), (5, [55])]
    (fun n => n % 3)
  ⟨by decide,
    (h.2.1 0 ⟨3, by decide, by decide⟩).trans (by decide),
    (h.2.2.1 5 (by decide)).trans (by decide)⟩

end vcpkg
